import Mathlib

/-!
Verification development for the crypto-analysis engine.

The quantitative engine (indicators.py, patterns.py, analysis_components.py,
signal_engine.py) is shallowly embedded here.  Python floats are modelled as
exact rationals (ℚ); Python's `round` (banker's rounding, half-to-even) is
modelled exactly by `pyRound`/`roundTo`; Python lists become `List ℚ`, with
NaN padding of indicator series modelled as `Option ℚ` (`none` = NaN).
`math.sqrt` is modelled by `sqrtQ`, which is exact on perfect-square
rationals; every theorem below evaluates it only at perfect squares (0 and
1), where it agrees with IEEE sqrt.  Places where the Python code would
raise (indexing an empty list) are modelled with total `getD`/`getLastD`
defaults; the theorems carry the corresponding non-emptiness/length
hypotheses so that the defaults never fire.  Concrete counterexample inputs
are chosen so that every arithmetic step is exact in binary floating point
as well.
-/

namespace CryptoBot

/-! ## Generic helpers -/

/-- Python's `round` to an integer: round half to even (banker's rounding). -/
def pyRound (x : ℚ) : ℤ :=
  if x - ⌊x⌋ < 1/2 then ⌊x⌋
  else if 1/2 < x - ⌊x⌋ then ⌊x⌋ + 1
  else if ⌊x⌋ % 2 = 0 then ⌊x⌋ else ⌊x⌋ + 1

/-- Python's `round(x, d)`: round to `d` decimal places, half to even. -/
def roundTo (x : ℚ) (d : ℕ) : ℚ := (pyRound (x * 10 ^ d) : ℚ) / 10 ^ d

/-- `_clamp` from signal_engine.py: `max(lo, min(hi, val))`. -/
def clamp (val lo hi : ℚ) : ℚ := max lo (min hi val)

/-- Python slice `l[a:b]` for `0 ≤ a ≤ b`. -/
def slice (l : List α) (a b : ℕ) : List α := (l.take b).drop a

/-- Python slice `l[-k:]` (for `k ≥ 1`): the last `k` elements. -/
def lastN (l : List α) (k : ℕ) : List α := l.drop (l.length - k)

/-- Python `max(l)` on a nonempty list (0 junk value on `[]`, where Python raises). -/
def listMax : List ℚ → ℚ
  | [] => 0
  | x :: xs => xs.foldl max x

/-- Python `min(l)` on a nonempty list (0 junk value on `[]`, where Python raises). -/
def listMin : List ℚ → ℚ
  | [] => 0
  | x :: xs => xs.foldl min x

/-- Whether `pre` is a prefix of `l` (over characters). -/
def charsStartWith : List Char → List Char → Bool
  | [], _ => true
  | _ :: _, [] => false
  | a :: as, b :: bs => a = b && charsStartWith as bs

/-- Whether `needle` occurs as a contiguous substring of `hay` (over characters). -/
def charsContain (needle : List Char) : List Char → Bool
  | [] => decide (needle = [])
  | c :: rest => charsStartWith needle (c :: rest) || charsContain needle rest

/-- Python's substring test `needle in hay` on strings. -/
def strIn (needle hay : String) : Bool := charsContain needle.toList hay.toList

/-- Model of `math.sqrt` on ℚ: exact on perfect-square rationals (the only
inputs at which any theorem in this file evaluates it). -/
def sqrtQ (x : ℚ) : ℚ := (Nat.sqrt x.num.toNat : ℚ) / (Nat.sqrt x.den : ℚ)

/-! ## Configuration constants (config.py) -/

def SMA_FAST : ℕ := 9
def SMA_MID : ℕ := 21
def SMA_SLOW : ℕ := 50
def RSI_PERIOD : ℕ := 14
def MACD_FAST : ℕ := 12
def MACD_SLOW : ℕ := 26
def MACD_SIGNAL : ℕ := 9
def BB_PERIOD : ℕ := 20
def BB_STD : ℚ := 2
def ATR_PERIOD : ℕ := 14
def VOLUME_SPIKE_THRESHOLD : ℚ := 1.5
def VOLUME_MA_PERIOD : ℕ := 20
def CLUSTER_TOLERANCE : ℚ := 0.015
def MIN_TOUCHES : ℕ := 2
def LEVEL_LOOKBACK : ℕ := 100
def WEIGHT_TREND : ℚ := 0.25
def WEIGHT_MOMENTUM : ℚ := 0.25
def WEIGHT_VOLUME : ℚ := 0.20
def WEIGHT_LEVELS : ℚ := 0.15
def WEIGHT_PATTERNS : ℚ := 0.15

/-! ## indicators.py — moving averages -/

/-- `sma`: simple moving average, NaN-padded (`none` = NaN). -/
def sma (data : List ℚ) (period : ℕ) : List (Option ℚ) :=
  List.replicate (period - 1) none ++
    (List.range' (period - 1) (data.length - (period - 1))).map
      (fun i => some ((slice data (i + 1 - period) (i + 1)).sum / (period : ℚ)))

/-- `ema`: exponential moving average seeded with the first raw value. -/
def ema (data : List ℚ) (period : ℕ) : List ℚ :=
  let k : ℚ := 2 / (period + 1)
  match data with
  | [] => []
  | d :: rest => List.scanl (fun prev price => price * k + prev * (1 - k)) d rest

/-- `sma_last`: latest SMA value, falling back to the mean of all data. -/
def sma_last (data : List ℚ) (period : ℕ) : ℚ :=
  if data.length < period then data.sum / (data.length : ℚ)
  else (lastN data period).sum / (period : ℚ)

/-- `ema_last`: latest EMA value. -/
def ema_last (data : List ℚ) (period : ℕ) : ℚ := (ema data period).getLastD 0

/-! ## indicators.py — RSI -/

/-- The Wilder update loop of `rsi` (the `for i in range(period, len(deltas))` loop). -/
def rsiLoop (period : ℕ) : List (ℚ × ℚ) → ℚ → ℚ → List ℚ
  | [], _, _ => []
  | gl :: rest, avgGain, avgLoss =>
    let avgGain' := (avgGain * ((period : ℚ) - 1) + gl.1) / (period : ℚ)
    let avgLoss' := (avgLoss * ((period : ℚ) - 1) + gl.2) / (period : ℚ)
    (if avgLoss' = 0 then 100 else 100 - 100 / (1 + avgGain' / avgLoss')) ::
      rsiLoop period rest avgGain' avgLoss'

/-- `rsi`: Wilder-smoothed RSI series, NaN-padded. -/
def rsi (closes : List ℚ) (period : ℕ := RSI_PERIOD) : List (Option ℚ) :=
  let deltas := List.zipWith (fun a b => b - a) closes closes.tail
  let gains := deltas.map (fun d => max d 0)
  let losses := deltas.map (fun d => |min d 0|)
  let avgGain := (gains.take period).sum / (period : ℚ)
  let avgLoss := (losses.take period).sum / (period : ℚ)
  let first : ℚ := if avgLoss = 0 then 100 else 100 - 100 / (1 + avgGain / avgLoss)
  List.replicate period none ++
    (first :: rsiLoop period ((gains.drop period).zip (losses.drop period)) avgGain avgLoss).map some

/-- `rsi_last`: latest RSI value (`50` fallback is dead code: `rsi` is never empty). -/
def rsi_last (closes : List ℚ) (period : ℕ := RSI_PERIOD) : ℚ :=
  match (rsi closes period).getLast? with
  | some (some v) => v
  | _ => 50

/-! ## indicators.py — MACD -/

structure MacdSnap where
  macd : ℚ
  signal : ℚ
  histogram : ℚ
deriving DecidableEq, Repr

/-- `macd`: MACD line, signal line and histogram series. -/
def macdLists (closes : List ℚ) (fast : ℕ := MACD_FAST) (slow : ℕ := MACD_SLOW)
    (signalP : ℕ := MACD_SIGNAL) : List ℚ × List ℚ × List ℚ :=
  let emaFast := ema closes fast
  let emaSlow := ema closes slow
  let macdLine := List.zipWith (fun f s => f - s) emaFast emaSlow
  let signalLine := ema macdLine signalP
  let histogram := List.zipWith (fun m s => m - s) macdLine signalLine
  (macdLine, signalLine, histogram)

/-- `macd_last`: latest MACD values. -/
def macd_last (closes : List ℚ) : MacdSnap :=
  let m := macdLists closes
  ⟨m.1.getLastD 0, m.2.1.getLastD 0, m.2.2.getLastD 0⟩

/-! ## indicators.py — Bollinger Bands -/

/-- The loop body of `bollinger_bands` at index `i`: NaN where the middle
band is NaN, else mean ± std_mult × population std over the same window. -/
def bbBandAt (closes : List ℚ) (period : ℕ) (stdMult : ℚ) (middle : List (Option ℚ))
    (i : ℕ) : Option ℚ × Option ℚ :=
  match middle.getD i none with
  | none => (none, none)
  | some mean =>
    let window := slice closes (i + 1 - period) (i + 1)
    let variance := (window.map (fun x => (x - mean) ^ 2)).sum / (window.length : ℚ)
    let std := sqrtQ variance
    (some (mean + stdMult * std), some (mean - stdMult * std))

/-- `bollinger_bands`: (upper, middle, lower) band series, NaN-padded. -/
def bollinger_bands (closes : List ℚ) (period : ℕ := BB_PERIOD) (stdMult : ℚ := BB_STD) :
    List (Option ℚ) × List (Option ℚ) × List (Option ℚ) :=
  ((List.range closes.length).map
      (fun i => (bbBandAt closes period stdMult (sma closes period) i).1),
   sma closes period,
   (List.range closes.length).map
      (fun i => (bbBandAt closes period stdMult (sma closes period) i).2))

structure BBSnap where
  upper : ℚ
  middle : ℚ
  lower : ℚ
  width : ℚ
  pct_b : ℚ
deriving DecidableEq, Repr

/-- `bb_last`: latest Bollinger values; `none` models the all-NaN result the
Python code produces when the last middle-band entry is NaN. -/
def bb_last (closes : List ℚ) : Option BBSnap :=
  let bb := bollinger_bands closes
  match bb.1.getLastD none, bb.2.1.getLastD none, bb.2.2.getLastD none with
  | some u, some m, some lo =>
    some ⟨u, m, lo, (u - lo) / m * 100,
      if u - lo ≠ 0 then (closes.getLastD 0 - lo) / (u - lo) else 0.5⟩
  | _, _, _ => none

/-! ## indicators.py — ATR -/

/-- True ranges for bars `1 ≤ i < n` (the loop body shared by `atr` and `adx`). -/
def trTail (highs lows closes : List ℚ) : List ℚ :=
  (List.range' 1 (closes.length - 1)).map (fun i =>
    max (highs.getD i 0 - lows.getD i 0)
      (max |highs.getD i 0 - closes.getD (i - 1) 0| |lows.getD i 0 - closes.getD (i - 1) 0|))

/-- `atr`'s `tr_list`: first bar's high−low, then true ranges. -/
def trList (highs lows closes : List ℚ) : List ℚ :=
  match highs, lows with
  | h0 :: _, l0 :: _ => (h0 - l0) :: trTail highs lows closes
  | _, _ => []

/-- `atr`: Wilder-smoothed ATR series, NaN-padded. -/
def atr (highs lows closes : List ℚ) (period : ℕ := ATR_PERIOD) : List (Option ℚ) :=
  let tr := trList highs lows closes
  List.replicate (period - 1) none ++
    (List.scanl (fun prev t => (prev * ((period : ℚ) - 1) + t) / (period : ℚ))
      ((tr.take period).sum / (period : ℚ)) (tr.drop period)).map some

/-- `atr_last`: latest ATR value. -/
def atr_last (highs lows closes : List ℚ) (period : ℕ := ATR_PERIOD) : ℚ :=
  match (atr highs lows closes period).getLast? with
  | some (some v) => v
  | _ => 0

/-! ## indicators.py — Stochastic -/

/-- The loop body of `stochastic`'s `%K` at index `i`. -/
def stochKAt (highs lows closes : List ℚ) (kPeriod i : ℕ) : ℚ :=
  let h := listMax (slice highs (i + 1 - kPeriod) (i + 1))
  let l := listMin (slice lows (i + 1 - kPeriod) (i + 1))
  if h = l then 50 else (closes.getD i 0 - l) / (h - l) * 100

/-- `stochastic`'s `%K` series. -/
def stochasticK (highs lows closes : List ℚ) (kPeriod : ℕ := 14) : List ℚ :=
  (List.range closes.length).map (stochKAt highs lows closes kPeriod)

/-- `stochastic`'s `%D` series: SMA of `%K`, NaN-padded. -/
def stochasticD (highs lows closes : List ℚ) (kPeriod : ℕ := 14) (dPeriod : ℕ := 3) :
    List (Option ℚ) :=
  sma (stochasticK highs lows closes kPeriod) dPeriod

/-- `stochastic_last`'s `%K` component. -/
def stochastic_last_k (highs lows closes : List ℚ) : ℚ :=
  (stochasticK highs lows closes).getLastD 0

/-! ## indicators.py — ADX -/

structure AdxSnap where
  adx : ℚ
  plus_di : ℚ
  minus_di : ℚ
deriving DecidableEq, Repr

/-- The `+DM`/`−DM` lists of `adx`. -/
def adxDms (highs lows : List ℚ) (n : ℕ) : List ℚ × List ℚ :=
  let pm := (List.range' 1 (n - 1)).map (fun i =>
    let up := highs.getD i 0 - highs.getD (i - 1) 0
    let down := lows.getD (i - 1) 0 - lows.getD i 0
    ((if up > down ∧ up > 0 then up else 0), (if down > up ∧ down > 0 then down else 0)))
  (pm.map (·.1), pm.map (·.2))

/-- `adx`'s inner `smooth` helper (Wilder smoothing of running sums). -/
def wilderSmooth (arr : List ℚ) (period : ℕ) : List ℚ :=
  List.scanl (fun s val => s - s / (period : ℚ) + val) (arr.take period).sum (arr.drop period)

/-- `adx`: latest ADX, +DI, −DI; neutral default on insufficient data. -/
def adxCompute (highs lows closes : List ℚ) (period : ℕ := 14) : AdxSnap :=
  let n := closes.length
  let dms := adxDms highs lows n
  let tr := trTail highs lows closes
  if tr.length < period then ⟨25, 50, 50⟩
  else
    let strL := wilderSmooth tr period
    let spDm := wilderSmooth dms.1 period
    let smDm := wilderSmooth dms.2 period
    let plusDi := List.zipWith (fun p t => if t ≠ 0 then 100 * p / t else 0) spDm strL
    let minusDi := List.zipWith (fun m t => if t ≠ 0 then 100 * m / t else 0) smDm strL
    let dx := List.zipWith (fun p m => if p + m ≠ 0 then |p - m| / (p + m) * 100 else 0)
      plusDi minusDi
    let adxVal :=
      if dx.length < period then (if dx.length = 0 then 25 else dx.sum / (dx.length : ℚ))
      else (dx.drop period).foldl (fun a v => (a * ((period : ℚ) - 1) + v) / (period : ℚ))
        ((dx.take period).sum / (period : ℚ))
    ⟨roundTo adxVal 1, roundTo (plusDi.getLastD 0) 1, roundTo (minusDi.getLastD 0) 1⟩

/-! ## indicators.py — OBV, VWAP, volume helpers -/

/-- `obv`: on-balance volume series. -/
def obvList (closes volumes : List ℚ) : List ℚ :=
  List.scanl (fun acc cv =>
      if cv.1.2 > cv.1.1 then acc + cv.2
      else if cv.1.2 < cv.1.1 then acc - cv.2
      else acc)
    0 ((closes.zip closes.tail).zip volumes.tail)

/-- `obv_trend`: classify the recent OBV slope. -/
def obv_trend (closes volumes : List ℚ) (lookback : ℕ := 20) : String :=
  let o := obvList closes volumes
  if o.length < lookback then "neutral"
  else
    let recent := lastN o lookback
    let first := recent.headD 0
    let slope := if first ≠ 0 then (recent.getLastD 0 - first) / |first| else 0
    if slope > 0.05 then "rising" else if slope < -0.05 then "falling" else "flat"

/-- `vwap`: cumulative volume-weighted average price. -/
def vwap (highs lows closes volumes : List ℚ) : ℚ :=
  let tpVol := (((highs.zip lows).zip (closes.zip volumes)).map
    (fun x => ((x.1.1 + x.1.2 + x.2.1) / 3) * x.2.2)).sum
  let totalVol := volumes.sum
  if totalVol ≠ 0 then tpVol / totalVol else closes.getLastD 0

/-- `volume_sma`. -/
def volume_sma (volumes : List ℚ) (period : ℕ := VOLUME_MA_PERIOD) : ℚ :=
  sma_last volumes period

/-- `volume_ratio`: current volume / average volume. -/
def volume_ratio (volumes : List ℚ) (period : ℕ := VOLUME_MA_PERIOD) : ℚ :=
  let avg := volume_sma volumes period
  if avg ≠ 0 then volumes.getLastD 0 / avg else 1

/-- `is_volume_spike`. -/
def is_volume_spike (volumes : List ℚ) (threshold : ℚ := VOLUME_SPIKE_THRESHOLD) : Bool :=
  volume_ratio volumes ≥ threshold

/-- `volume_trend`: compare older-half vs newer-half mean of last `lookback` volumes. -/
def volume_trend (volumes : List ℚ) (lookback : ℕ := 10) : String :=
  if volumes.length < lookback then "unknown"
  else
    let firstHalf := ((lastN volumes lookback).take (lookback - (lookback + 1) / 2)).sum /
      ((lookback / 2 : ℕ) : ℚ)
    let secondHalf := (lastN volumes (lookback / 2)).sum / ((lookback / 2 : ℕ) : ℚ)
    let ratio := if firstHalf ≠ 0 then secondHalf / firstHalf else 1
    if ratio > 1.2 then "increasing" else if ratio < 0.8 then "decreasing" else "stable"

/-! ## patterns.py — candlestick pattern detectors

Candle series are parallel lists, newest last.  Dict keys "open"/"high"/
"low"/"close"/"volume" become the fields `opens`/`highs`/`lows`/`closes`/
`volumes`. -/

structure OHLCV where
  opens : List ℚ
  highs : List ℚ
  lows : List ℚ
  closes : List ℚ
  volumes : List ℚ
deriving DecidableEq, Repr

/-- A pattern match dict: name, bias, strength, bar index, bars-ago. -/
structure Pat where
  name : String
  bias : String
  strength : ℕ
  index : ℕ
  bars_ago : ℕ := 0
deriving DecidableEq, Repr

/-- `_detect_doji`: body < 10% of total range. -/
def detect_doji (o h l c : ℚ) (i : ℕ) : Option Pat :=
  let r := h - l
  if r = 0 then none
  else if |c - o| / r < 0.10 then some ⟨"Doji", "neutral", 1, i, 0⟩
  else none

/-- `_detect_hammer`: small body at top, long lower shadow. -/
def detect_hammer (opens highs lows closes : List ℚ) (i : ℕ) : Option Pat :=
  let o := opens.getD i 0
  let h := highs.getD i 0
  let l := lows.getD i 0
  let c := closes.getD i 0
  let r := h - l
  if r = 0 then none
  else
    let body := |c - o|
    let ls := min o c - l
    let us := h - max o c
    if ls ≥ body * 2 ∧ us < body * 0.5 ∧ body / r < 0.35 then
      if 3 ≤ i ∧ c < closes.getD (i - 3) 0 then some ⟨"Hammer", "bullish", 2, i, 0⟩
      else if 3 ≤ i ∧ c > closes.getD (i - 3) 0 then some ⟨"Hanging Man", "bearish", 2, i, 0⟩
      else none
    else none

/-- `_detect_shooting_star`: small body at bottom, long upper wick. -/
def detect_shooting_star (opens highs lows closes : List ℚ) (i : ℕ) : Option Pat :=
  let o := opens.getD i 0
  let h := highs.getD i 0
  let l := lows.getD i 0
  let c := closes.getD i 0
  let r := h - l
  if r = 0 then none
  else
    let body := |c - o|
    let us := h - max o c
    let ls := min o c - l
    if us ≥ body * 2 ∧ ls < body * 0.5 ∧ body / r < 0.35 then
      if 3 ≤ i ∧ c > closes.getD (i - 3) 0 then some ⟨"Shooting Star", "bearish", 2, i, 0⟩
      else if 3 ≤ i ∧ c < closes.getD (i - 3) 0 then some ⟨"Inverted Hammer", "bullish", 1, i, 0⟩
      else none
    else none

/-- `_detect_engulfing`: two-bar engulfing patterns. -/
def detect_engulfing (opens highs lows closes : List ℚ) (i : ℕ) : Option Pat :=
  if i < 1 then none
  else
    let o0 := opens.getD (i - 1) 0
    let c0 := closes.getD (i - 1) 0
    let o1 := opens.getD i 0
    let c1 := closes.getD i 0
    if o0 > c0 ∧ c1 > o1 ∧ o1 ≤ c0 ∧ c1 ≥ o0 then
      some ⟨"Bullish Engulfing", "bullish", 3, i, 0⟩
    else if c0 > o0 ∧ o1 > c1 ∧ o1 ≥ c0 ∧ c1 ≤ o0 then
      some ⟨"Bearish Engulfing", "bearish", 3, i, 0⟩
    else none

/-- `_detect_morning_evening_star`: three-bar star patterns. -/
def detect_morning_evening_star (opens highs lows closes : List ℚ) (i : ℕ) : Option Pat :=
  if i < 2 then none
  else
    let o0 := opens.getD (i - 2) 0
    let c0 := closes.getD (i - 2) 0
    let o1 := opens.getD (i - 1) 0
    let c1 := closes.getD (i - 1) 0
    let o2 := opens.getD i 0
    let c2 := closes.getD i 0
    let body0 := |c0 - o0|
    let body1 := |c1 - o1|
    let body2 := |c2 - o2|
    if o0 > c0 ∧ body0 > body1 * 2 ∧ c2 > o2 ∧ body2 > body1 * 2 then
      some ⟨"Morning Star", "bullish", 3, i, 0⟩
    else if c0 > o0 ∧ body0 > body1 * 2 ∧ o2 > c2 ∧ body2 > body1 * 2 then
      some ⟨"Evening Star", "bearish", 3, i, 0⟩
    else none

/-- `_detect_three_soldiers_crows`. -/
def detect_three_soldiers_crows (opens highs lows closes : List ℚ) (i : ℕ) : Option Pat :=
  if i < 2 then none
  else
    let bull := fun (j : ℕ) => closes.getD (i - j) 0 > opens.getD (i - j) 0
    let bear := fun (j : ℕ) => opens.getD (i - j) 0 > closes.getD (i - j) 0
    if bull 0 ∧ bull 1 ∧ bull 2 ∧
        closes.getD i 0 > closes.getD (i - 1) 0 ∧ closes.getD (i - 1) 0 > closes.getD (i - 2) 0 then
      some ⟨"Three White Soldiers", "bullish", 3, i, 0⟩
    else if bear 0 ∧ bear 1 ∧ bear 2 ∧
        closes.getD i 0 < closes.getD (i - 1) 0 ∧ closes.getD (i - 1) 0 < closes.getD (i - 2) 0 then
      some ⟨"Three Black Crows", "bearish", 3, i, 0⟩
    else none

/-- `_detect_tweezer`: near-identical highs or lows on two candles. -/
def detect_tweezer (opens highs lows closes : List ℚ) (i : ℕ) : Option Pat :=
  if i < 1 then none
  else
    let r := highs.getD i 0 - lows.getD i 0
    let tol := if r ≠ 0 then r * 0.05 else 0.001
    if |highs.getD i 0 - highs.getD (i - 1) 0| ≤ tol ∧
        opens.getD i 0 > closes.getD i 0 ∧ closes.getD (i - 1) 0 > opens.getD (i - 1) 0 then
      some ⟨"Tweezer Top", "bearish", 2, i, 0⟩
    else if |lows.getD i 0 - lows.getD (i - 1) 0| ≤ tol ∧
        closes.getD i 0 > opens.getD i 0 ∧ opens.getD (i - 1) 0 > closes.getD (i - 1) 0 then
      some ⟨"Tweezer Bottom", "bullish", 2, i, 0⟩
    else none

/-- `_detect_pin_bar`: one-sided wick at least 2/3 of total range. -/
def detect_pin_bar (opens highs lows closes : List ℚ) (i : ℕ) : Option Pat :=
  let o := opens.getD i 0
  let h := highs.getD i 0
  let l := lows.getD i 0
  let c := closes.getD i 0
  let r := h - l
  if r = 0 then none
  else
    let ls := min o c - l
    let us := h - max o c
    if ls / r ≥ 0.66 then some ⟨"Bullish Pin Bar", "bullish", 2, i, 0⟩
    else if us / r ≥ 0.66 then some ⟨"Bearish Pin Bar", "bearish", 2, i, 0⟩
    else none

/-- One scan step of `detect_patterns`: all eight detectors, in the fixed
source order, applied at bar `i`, with `bars_ago` filled in. -/
def detectorsAt (ohlcv : OHLCV) (n i : ℕ) : List Pat :=
  ([detect_doji (ohlcv.opens.getD i 0) (ohlcv.highs.getD i 0) (ohlcv.lows.getD i 0)
      (ohlcv.closes.getD i 0) i,
    detect_hammer ohlcv.opens ohlcv.highs ohlcv.lows ohlcv.closes i,
    detect_shooting_star ohlcv.opens ohlcv.highs ohlcv.lows ohlcv.closes i,
    detect_engulfing ohlcv.opens ohlcv.highs ohlcv.lows ohlcv.closes i,
    detect_morning_evening_star ohlcv.opens ohlcv.highs ohlcv.lows ohlcv.closes i,
    detect_three_soldiers_crows ohlcv.opens ohlcv.highs ohlcv.lows ohlcv.closes i,
    detect_tweezer ohlcv.opens ohlcv.highs ohlcv.lows ohlcv.closes i,
    detect_pin_bar ohlcv.opens ohlcv.highs ohlcv.lows ohlcv.closes i].filterMap id).map
    (fun p => { p with bars_ago := n - 1 - i })

/-- The raw (pre-deduplication) pattern list accumulated by `detect_patterns`. -/
def rawPatterns (ohlcv : OHLCV) (lookback : ℕ := 10) : List Pat :=
  let n := ohlcv.closes.length
  let start := n - lookback
  ((List.range' start (n - start)).map (detectorsAt ohlcv n)).flatten

/-- The deduplication key `(p["index"], p["bias"])`. -/
def pkey (p : Pat) : ℕ × String := (p.index, p.bias)

/-- Python `seen[key]` lookup on the insertion-ordered dict model. -/
def lookupKey : List ((ℕ × String) × Pat) → (ℕ × String) → Option Pat
  | [], _ => none
  | e :: rest, k => if e.1 = k then some e.2 else lookupKey rest k

/-- One iteration of the dedup loop: `seen[key] = p` if the key is new or the
new strength is strictly greater (dict update keeps insertion position). -/
def dedupStep (seen : List ((ℕ × String) × Pat)) (p : Pat) : List ((ℕ × String) × Pat) :=
  match lookupKey seen (pkey p) with
  | none => seen ++ [(pkey p, p)]
  | some q =>
    if q.strength < p.strength then
      seen.map (fun e => if e.1 = pkey p then (pkey p, p) else e)
    else seen

/-- The dedup loop over the raw pattern list. -/
def dedupLoop (seen : List ((ℕ × String) × Pat)) : List Pat → List ((ℕ × String) × Pat)
  | [] => seen
  | p :: rest => dedupLoop (dedupStep seen p) rest

/-- The `seen` dict after deduplicating `ps` (insertion-ordered). -/
def dedupe (ps : List Pat) : List ((ℕ × String) × Pat) := dedupLoop [] ps

/-- `sorted(..., key=lambda x: x["index"], reverse=True)` — stable descending
sort by bar index (insertion sort is stable, like Python's sort). -/
def byIndexDesc (a b : Pat) : Prop := b.index ≤ a.index

instance : DecidableRel byIndexDesc := fun a b => inferInstanceAs (Decidable (b.index ≤ a.index))

instance : IsTotal Pat byIndexDesc := ⟨fun a b => le_total b.index a.index⟩

instance : IsTrans Pat byIndexDesc := ⟨fun _ _ _ h1 h2 => le_trans h2 h1⟩

/-- `detect_patterns`: scan, deduplicate, sort most recent bar first. -/
def detect_patterns (ohlcv : OHLCV) (lookback : ℕ := 10) : List Pat :=
  List.insertionSort byIndexDesc ((dedupe (rawPatterns ohlcv lookback)).map (·.2))

/-! ## analysis_components.py — support / resistance levels -/

/-- The grouping loop of `_cluster_levels`, on the already-sorted price list:
greedily span from each anchor while within tolerance of the anchor, keep
groups with at least `MIN_TOUCHES` members as (mean, touch count).  The
fuel argument (structural recursion, so that the kernel can evaluate it)
starts at the list length and never runs out: every step consumes at least
the anchor element. -/
def clusterGroupsAux (tol : ℚ) : ℕ → List ℚ → List (ℚ × ℕ)
  | 0, _ => []
  | _, [] => []
  | fuel + 1, x :: rest =>
    let grp := x :: rest.takeWhile (fun y => (y - x) / x ≤ tol)
    (if MIN_TOUCHES ≤ grp.length then [(grp.sum / (grp.length : ℚ), grp.length)] else []) ++
      clusterGroupsAux tol fuel (rest.dropWhile (fun y => (y - x) / x ≤ tol))

/-- The grouping loop of `_cluster_levels` on the sorted price list. -/
def clusterGroups (tol : ℚ) (sorted_p : List ℚ) : List (ℚ × ℕ) :=
  clusterGroupsAux tol sorted_p.length sorted_p

/-- Ascending order on cluster price (`sorted(..., key=lambda x: x[0])`). -/
def leFst (a b : ℚ × ℕ) : Prop := a.1 ≤ b.1

instance : DecidableRel leFst := fun a b => inferInstanceAs (Decidable (a.1 ≤ b.1))

instance : IsTotal (ℚ × ℕ) leFst := ⟨fun a b => le_total a.1 b.1⟩

instance : IsTrans (ℚ × ℕ) leFst := ⟨fun _ _ _ h1 h2 => le_trans h1 h2⟩

/-- Descending order on cluster price (`sorted(..., reverse=True)`). -/
def geFst (a b : ℚ × ℕ) : Prop := b.1 ≤ a.1

instance : DecidableRel geFst := fun a b => inferInstanceAs (Decidable (b.1 ≤ a.1))

instance : IsTotal (ℚ × ℕ) geFst := ⟨fun a b => le_total b.1 a.1⟩

instance : IsTrans (ℚ × ℕ) geFst := ⟨fun _ _ _ h1 h2 => le_trans h2 h1⟩

/-- `_cluster_levels`: sort, then group within tolerance. -/
def cluster_levels (prices : List ℚ) (tolerance : ℚ) : List (ℚ × ℕ) :=
  clusterGroups tolerance (List.insertionSort (fun a b : ℚ => a ≤ b) prices)

/-- The effective lookback: `lookback or config.LEVEL_LOOKBACK` (`None` and
`0` are both falsy in Python). -/
def effLookback : Option ℕ → ℕ
  | none => LEVEL_LOOKBACK
  | some n => if n = 0 then LEVEL_LOOKBACK else n

/-- Confirmed resistance clusters above current price, nearest first. -/
def levelResistances (highs : List ℚ) (current tol : ℚ) : List (ℚ × ℕ) :=
  List.insertionSort leFst
    ((cluster_levels highs tol).filter (fun x => x.1 > current * (1 + tol * 0.5)))

/-- Confirmed support clusters below current price, nearest first. -/
def levelSupports (lows : List ℚ) (current tol : ℚ) : List (ℚ × ℕ) :=
  List.insertionSort geFst
    ((cluster_levels lows tol).filter (fun x => x.1 < current * (1 - tol * 0.5)))

/-- The Level Set output dict of `find_key_levels`. -/
structure LevelSet where
  current : ℚ
  r1 : ℚ
  r1_touches : ℕ
  r2 : ℚ
  r2_touches : ℕ
  s1 : ℚ
  s1_touches : ℕ
  s2 : ℚ
  s2_touches : ℕ
  atr : ℚ
  atr_pct : ℚ
  range_high : ℚ
  range_low : ℚ
  range_position : ℚ
deriving DecidableEq, Repr

/-- `find_key_levels`: cluster recent highs/lows into levels with fallbacks,
plus ATR and range-position context. -/
def find_key_levels (ohlcv : OHLCV) (lookback : Option ℕ := none) : LevelSet :=
  let lb := effLookback lookback
  let highs := lastN ohlcv.highs lb
  let lows := lastN ohlcv.lows lb
  let closes := lastN ohlcv.closes lb
  let current := closes.getLastD 0
  let tol := CLUSTER_TOLERANCE
  let resistances := levelResistances highs current tol
  let supports := levelSupports lows current tol
  let r1 := resistances.headD (listMax highs * 1.02, 0)
  let r2 := resistances.getD 1 (r1.1 * 1.03, 0)
  let s1 := supports.headD (listMin lows * 0.98, 0)
  let s2 := supports.getD 1 (s1.1 * 0.97, 0)
  let atrv := atr_last ohlcv.highs ohlcv.lows ohlcv.closes
  { current := roundTo current 6
    r1 := roundTo r1.1 6
    r1_touches := r1.2
    r2 := roundTo r2.1 6
    r2_touches := r2.2
    s1 := roundTo s1.1 6
    s1_touches := s1.2
    s2 := roundTo s2.1 6
    s2_touches := s2.2
    atr := roundTo atrv 6
    atr_pct := if current ≠ 0 then roundTo (atrv / current * 100) 2 else 0
    range_high := roundTo (listMax highs) 6
    range_low := roundTo (listMin lows) 6
    range_position :=
      if listMax highs ≠ listMin lows then
        roundTo ((current - listMin lows) / (listMax highs - listMin lows) * 100) 1
      else 50 }

/-! ## analysis_components.py — multi-timeframe trend -/

/-- One timeframe's dict inside `analyze_trend_mtf`. -/
structure TrendTF where
  tf : String
  direction : String
  momentum : String
  rsi : ℚ
  macd_hist : ℚ
  adx : ℚ
  trend_strength : String
deriving DecidableEq, Repr

/-- `_single_tf`: per-timeframe direction / momentum classification. -/
def single_tf (data : OHLCV) (label : String) : TrendTF :=
  let c := data.closes
  let current := c.getLastD 0
  let sma9 := sma_last c SMA_FAST
  let sma21 := sma_last c SMA_MID
  let sma50 := sma_last c SMA_SLOW
  let rsiV := rsi_last c
  let macdV := macd_last c
  let adxV := adxCompute data.highs data.lows c
  let direction :=
    if sma9 > sma21 ∧ sma21 > sma50 ∧ current > sma9 then "strong_up"
    else if sma9 > sma21 ∧ current > sma21 then "up"
    else if sma9 < sma21 ∧ sma21 < sma50 ∧ current < sma9 then "strong_down"
    else if sma9 < sma21 ∧ current < sma21 then "down"
    else "sideways"
  let momentum :=
    if rsiV > 70 then "overbought"
    else if rsiV < 30 then "oversold"
    else if rsiV > 55 then "bullish"
    else if rsiV < 45 then "bearish"
    else "neutral"
  ⟨label, direction, momentum, rsiV, macdV.histogram, adxV.adx,
    if adxV.adx > 25 then "strong" else "weak"⟩

/-- The Trend Report output dict of `analyze_trend_mtf`. -/
structure TrendReport where
  overall : String
  confluence_score : ℚ
  primary : TrendTF
  tf_1h : TrendTF
  tf_4h : TrendTF
deriving DecidableEq, Repr

/-- One timeframe's contribution to the confluence score. -/
def confluenceDelta (tf : TrendTF) : ℚ :=
  (if strIn "up" tf.direction then 1 else if strIn "down" tf.direction then -1 else 0) +
    (if tf.momentum = "bullish" ∨ tf.momentum = "overbought" then 0.5
     else if tf.momentum = "bearish" ∨ tf.momentum = "oversold" then -0.5 else 0)

/-- `analyze_trend_mtf`: three timeframes plus confluence scoring. -/
def analyze_trend_mtf (ohlcv ohlcv_1h ohlcv_4h : OHLCV) : TrendReport :=
  let tfPrimary := single_tf ohlcv "primary"
  let tf1h := single_tf ohlcv_1h "1h"
  let tf4h := single_tf ohlcv_4h "4h"
  let score := confluenceDelta tfPrimary + confluenceDelta tf1h + confluenceDelta tf4h
  let overall :=
    if score ≥ 2 then "bullish"
    else if score ≤ -2 then "bearish"
    else if score > 0 then "lean_bullish"
    else if score < 0 then "lean_bearish"
    else "neutral"
  ⟨overall, roundTo score 1, tfPrimary, tf1h, tf4h⟩

/-! ## analysis_components.py — money flow -/

/-- The Flow Report output dict of `analyze_money_flow`. -/
structure FlowReport where
  vwap : ℚ
  price_vs_vwap : String
  obv_trend : String
  vol_ratio : ℚ
  vol_spike : Bool
  vol_trend : String
  buy_pct : ℚ
  sell_pct : ℚ
  buy_candles : ℕ
  sell_candles : ℤ
  flow : String
deriving DecidableEq, Repr

/-- The last-10-candles `(close, open, volume)` triples used for the
buy/sell pressure split (Python indexes `c[i]` for `i in range(-10, 0)`;
this is the last 10 entries, faithful whenever the series has ≥ 10 bars
and the lists have equal length). -/
def last10Triples (ohlcv : OHLCV) : List ((ℚ × ℚ) × ℚ) :=
  ((lastN ohlcv.closes 10).zip (lastN ohlcv.opens 10)).zip (lastN ohlcv.volumes 10)

/-- `analyze_money_flow`: volume, OBV, VWAP based flow classification. -/
def analyze_money_flow (ohlcv _ohlcv_1h _ohlcv_4h : OHLCV) : FlowReport :=
  let c := ohlcv.closes
  let h := ohlcv.highs
  let l := ohlcv.lows
  let v := ohlcv.volumes
  let current := c.getLastD 0
  let vwapV := vwap h l c v
  let obvT := obv_trend c v
  let volRatioV := volume_ratio v
  let volTrendV := volume_trend v
  let volSpikeV := is_volume_spike v
  let last10 := last10Triples ohlcv
  let buyCandles := ((lastN c 10).zip (lastN ohlcv.opens 10)).countP (fun p => p.1 > p.2)
  let buyVolume := ((last10.filter (fun p => p.1.1 > p.1.2)).map (·.2)).sum
  let sellVolume := ((last10.filter (fun p => p.1.1 ≤ p.1.2)).map (·.2)).sum
  let totalRecentVol := buyVolume + sellVolume
  let buyPct : ℚ := if totalRecentVol > 0 then roundTo (buyVolume / totalRecentVol * 100) 1 else 50
  let flow :=
    if buyPct > 60 ∧ obvT = "rising" then "strong_inflow"
    else if buyPct > 55 then "inflow"
    else if buyPct < 40 ∧ obvT = "falling" then "strong_outflow"
    else if buyPct < 45 then "outflow"
    else "balanced"
  { vwap := roundTo vwapV 6
    price_vs_vwap := if current > vwapV then "above" else "below"
    obv_trend := obvT
    vol_ratio := roundTo volRatioV 2
    vol_spike := volSpikeV
    vol_trend := volTrendV
    buy_pct := buyPct
    sell_pct := roundTo (100 - buyPct) 1
    buy_candles := buyCandles
    sell_candles := 10 - (buyCandles : ℤ)
    flow := flow }

/-! ## analysis_components.py — scenario builder

The indicator-snapshot fields consumed by the scorer and scenario builder
(the `compute_all` dict entries actually read downstream). -/

structure Indicators where
  rsi : ℚ
  macd_hist : ℚ
  stoch_k : ℚ
  stoch_d : ℚ
  price_vs_vwap : ℚ
  bb_pct_b : ℚ
  adx : ℚ
deriving DecidableEq, Repr

/-- A scenario dict.  The prose `trigger`/`target`/`stop` display strings of
the source are represented by their numeric content (`target1`, `target2`,
`stop`); the f-string formatting itself is display-only. -/
structure Scenario where
  label : String
  target1 : ℚ
  target2 : ℚ
  stop : ℚ
  rr_ratio : ℚ
  probability : String
  confluence : ℕ
deriving DecidableEq, Repr

/-- `build_scenarios`: bullish / bearish / range-bound trade hypotheses. -/
def build_scenarios (indicators : Indicators) (levels : LevelSet) (trend : TrendReport)
    (flow : FlowReport) (_patterns : List Pat) : List Scenario :=
  let current := levels.current
  let r1 := levels.r1
  let s1 := levels.s1
  let atrVal := levels.atr
  let rsiVal := indicators.rsi
  let bullConfluence : ℕ :=
    (if rsiVal < 45 then 1 else 0) + (if flow.price_vs_vwap = "below" then 1 else 0) +
      (if indicators.macd_hist < 0 then 1 else 0)
  let bullTarget1 := roundTo (current + atrVal * 1.5) 6
  let bullTarget2 := r1
  let bullStop := roundTo (current - atrVal * 1.0) 6
  let bullRr := if current ≠ bullStop then
      roundTo ((bullTarget2 - current) / (current - bullStop)) 1
    else 0
  let bullProb :=
    if 2 ≤ bullConfluence ∧ strIn "bullish" trend.overall then "high"
    else if 1 ≤ bullConfluence then "medium"
    else "low"
  let bearConfluence : ℕ :=
    (if rsiVal > 55 then 1 else 0) + (if flow.price_vs_vwap = "above" then 1 else 0) +
      (if indicators.macd_hist > 0 then 1 else 0)
  let bearTarget1 := roundTo (current - atrVal * 1.5) 6
  let bearTarget2 := s1
  let bearStop := roundTo (current + atrVal * 1.0) 6
  let bearRr := if bearStop ≠ current then
      roundTo (|current - bearTarget2| / (bearStop - current)) 1
    else 0
  let bearProb :=
    if 2 ≤ bearConfluence ∧ strIn "bearish" trend.overall then "high"
    else if 1 ≤ bearConfluence then "medium"
    else "low"
  let rangeRr := if atrVal ≠ 0 then roundTo ((r1 - s1) / atrVal) 1 else 0
  let rangeProb :=
    if indicators.adx < 20 then "high" else if indicators.adx < 25 then "medium" else "low"
  [⟨"BULLISH", bullTarget1, bullTarget2, bullStop, bullRr, bullProb, bullConfluence⟩,
   ⟨"BEARISH", bearTarget1, bearTarget2, bearStop, bearRr, bearProb, bearConfluence⟩,
   ⟨"RANGE-BOUND", s1, r1, 0, rangeRr, rangeProb, if indicators.adx < 25 then 1 else 0⟩]

/-! ## signal_engine.py -/

/-- The `mapping.get(trend["overall"], 0)` base value of `score_trend`. -/
def trendBase (overall : String) : ℚ :=
  if overall = "bullish" then 25
  else if overall = "lean_bullish" then 12
  else if overall = "neutral" then 0
  else if overall = "lean_bearish" then -12
  else if overall = "bearish" then -25
  else 0

/-- `score_trend`: multi-TF trend score (−25 … +25). -/
def score_trend (trend : TrendReport) : ℚ :=
  let base := trendBase trend.overall
  let dirs := [trend.primary.direction, trend.tf_1h.direction, trend.tf_4h.direction]
  if dirs.all (fun d => strIn "up" d) then min (base + 5) 25
  else if dirs.all (fun d => strIn "down" d) then max (base - 5) (-25)
  else base

/-- `score_momentum`: RSI + MACD + Stochastic score (−25 … +25). -/
def score_momentum (indicators : Indicators) : ℚ :=
  let sRsi : ℚ :=
    if indicators.rsi > 70 then -8
    else if indicators.rsi > 55 then 6
    else if indicators.rsi < 30 then 8
    else if indicators.rsi < 45 then -6
    else 0
  let sMacd : ℚ :=
    if indicators.macd_hist > 0 then min (indicators.macd_hist * 500) 8
    else max (indicators.macd_hist * 500) (-8)
  let sStoch : ℚ :=
    if indicators.stoch_k > 80 ∧ indicators.stoch_d > 80 then -4
    else if indicators.stoch_k < 20 ∧ indicators.stoch_d < 20 then 4
    else if indicators.stoch_k > indicators.stoch_d then 2
    else -2
  clamp (sRsi + sMacd + sStoch) (-25) 25

/-- `score_volume`: money-flow score (−20 … +20). -/
def score_volume (flow : FlowReport) : ℚ :=
  let base : ℚ :=
    if flow.flow = "strong_inflow" then 18
    else if flow.flow = "inflow" then 10
    else if flow.flow = "balanced" then 0
    else if flow.flow = "outflow" then -10
    else if flow.flow = "strong_outflow" then -18
    else 0
  let spike : ℚ :=
    if flow.vol_spike then
      if flow.buy_pct > 55 then 2 else if flow.buy_pct < 45 then -2 else 0
    else 0
  clamp (base + spike) (-20) 20

/-- `score_levels`: price-vs-levels score (−15 … +15). -/
def score_levels (indicators : Indicators) (levels : LevelSet) : ℚ :=
  let sVwap : ℚ := if indicators.price_vs_vwap > 0 then 4 else -4
  let sBb : ℚ :=
    if indicators.bb_pct_b > 0.9 then -4
    else if indicators.bb_pct_b < 0.1 then 4
    else if indicators.bb_pct_b > 0.5 then 2
    else -2
  let sRange : ℚ :=
    if levels.range_position > 85 then -4
    else if levels.range_position < 15 then 4
    else 0
  clamp (sVwap + sBb + sRange) (-15) 15

/-- `score_patterns`: candlestick-pattern score (−15 … +15). -/
def score_patterns (patterns : List Pat) : ℚ :=
  clamp (patterns.foldl (fun s p =>
    let recency : ℚ := max 1 (5 - (p.bars_ago : ℚ))
    let contribution := (p.strength : ℚ) * recency * 0.8
    if p.bias = "bullish" then s + contribution
    else if p.bias = "bearish" then s - contribution
    else s) 0) (-15) 15

structure SignalBreakdown where
  trend : ℚ
  momentum : ℚ
  volume : ℚ
  levels : ℚ
  patterns : ℚ
deriving DecidableEq, Repr

/-- The Signal output dict of `compute_signal` (the mojibake emoji field is
display-only and omitted). -/
structure Signal where
  score : ℚ
  verdict : String
  confidence : ℚ
  breakdown : SignalBreakdown
deriving DecidableEq, Repr

/-- The agreement count of `compute_signal`: sub-scores with magnitude > 2
on the majority sign. -/
def signalAgreement (t m v l p : ℚ) : ℕ :=
  max ([t, m, v, l, p].filter (fun x => x > 2)).length
    ([t, m, v, l, p].filter (fun x => x < -2)).length

/-- The (pre-rounding) confidence value of `compute_signal`:
`min(100, agreement * 20 + abs(score) // 2)`. -/
def signalConfidence (t m v l p score : ℚ) : ℚ :=
  min 100 ((signalAgreement t m v l p : ℚ) * 20 + (⌊|score| / 2⌋ : ℚ))

/-- The verdict label chain of `compute_signal`. -/
def signalVerdict (score : ℚ) : String :=
  if score ≥ 60 then "Strong Buy"
  else if score ≥ 30 then "Buy"
  else if score ≥ 10 then "Lean Bullish"
  else if score ≤ -60 then "Strong Sell"
  else if score ≤ -30 then "Sell"
  else if score ≤ -10 then "Lean Bearish"
  else "Neutral"

/-- `compute_signal`: master scoring function. -/
def compute_signal (indicators : Indicators) (levels : LevelSet) (trend : TrendReport)
    (flow : FlowReport) (patterns : List Pat) : Signal :=
  let t := score_trend trend
  let m := score_momentum indicators
  let v := score_volume flow
  let l := score_levels indicators levels
  let p := score_patterns patterns
  let raw := t + m + v + l + p
  let score := clamp raw (-100) 100
  { score := roundTo score 1
    verdict := signalVerdict score
    confidence := (pyRound (signalConfidence t m v l p score) : ℚ)
    breakdown := ⟨roundTo t 1, roundTo m 1, roundTo v 1, roundTo l 1, roundTo p 1⟩ }

/-! ## Reference definitions taken from the spec's words (for the
refinement claims) and dedup bookkeeping -/

/-- Reference (spec §4.6): the five bounded sub-scores are summed then
clamped to [-100, 100] — the unweighted composite. -/
def refScoreUnweighted (t m v l p : ℚ) : ℚ := clamp (t + m + v + l + p) (-100) 100

/-- The weights-scaled variant (spec §9 open question): sub-scores
multiplied by the declared category weights before summing and clamping. -/
def refScoreWeighted (t m v l p : ℚ) : ℚ :=
  clamp (WEIGHT_TREND * t + WEIGHT_MOMENTUM * m + WEIGHT_VOLUME * v + WEIGHT_LEVELS * l +
    WEIGHT_PATTERNS * p) (-100) 100

/-- Reference (spec §4.5): the flow-classification decision chain, as a
function of the buy-volume percentage and the OBV trend label. -/
def refFlowClass (buyPct : ℚ) (obvT : String) : String :=
  if buyPct > 60 ∧ obvT = "rising" then "strong_inflow"
  else if buyPct > 55 then "inflow"
  else if buyPct < 40 ∧ obvT = "falling" then "strong_outflow"
  else if buyPct < 45 then "outflow"
  else "balanced"

/-- The raw detector matches colliding on key `k`. -/
def collOf (ohlcv : OHLCV) (k : ℕ × String) : List Pat :=
  (rawPatterns ohlcv).filter (fun p => pkey p = k)

/-- The maximum strength among a list of matches. -/
def maxStrength (l : List Pat) : ℕ := (l.map (·.strength)).foldl max 0

/-- One tie-break step: a new match replaces the current champion only when
strictly stronger. -/
def champStep (o : Option Pat) (p : Pat) : Pat :=
  match o with
  | none => p
  | some q => if q.strength < p.strength then p else q

/-- Folding the dedup tie-break over colliding matches: a later match
replaces the champion only when strictly stronger. -/
def champ : Option Pat → List Pat → Option Pat
  | acc, [] => acc
  | none, p :: rest => champ (some p) rest
  | some q, p :: rest => champ (some (if q.strength < p.strength then p else q)) rest

/-- The first match attaining the maximum strength. -/
def firstMax (l : List Pat) : Option Pat :=
  l.find? (fun p => maxStrength l ≤ p.strength)

/-- The association-list entry the dedup dict holds for a key, if any. -/
def champEntry (k : ℕ × String) : Option Pat → List ((ℕ × String) × Pat)
  | none => []
  | some c => [(k, c)]

/-- Invariant of the dedup dict model: keys are unique and each entry's key
is the key of its value. -/
def WellFormedSeen (seen : List ((ℕ × String) × Pat)) : Prop :=
  (seen.map (·.1)).Nodup ∧ ∀ e ∈ seen, e.1 = pkey e.2

/-! ## Concrete inputs for counterexamples and witnesses

All prices below are exactly representable in binary floating point or
produce exactly representable intermediate results, so the counterexamples
transfer to the Python float semantics. -/

/-- 20 degenerate candles (open = high = low = close): ten at 1, then ten
at 3; the latest bar has zero high-low range. -/
def ceC2closes : List ℚ := List.replicate 10 1 ++ List.replicate 10 3

def ceC2 : OHLCV := ⟨ceC2closes, ceC2closes, ceC2closes, ceC2closes, List.replicate 20 1⟩

/-- A constant degenerate series (every bar equal): witness for the amended
zero-range-window claim. -/
def wC2closes : List ℚ := List.replicate 20 2

/-- Two identical candles at price 0.000007 (a realistic small-cap crypto
price): the 6-decimal output rounding collapses r1/current/s1. -/
def ceC3prices : List ℚ := [7/1000000, 7/1000000]

def ceC3 : OHLCV := ⟨ceC3prices, ceC3prices, ceC3prices, ceC3prices, [1, 1]⟩

/-- Three ordinary candles with clustered highs/lows: witness input for the
level invariants. -/
def wC3 : OHLCV := ⟨[100, 100, 100], [110, 110, 110], [90, 90, 90], [100, 100, 100], [1, 1, 1]⟩

/-- Four candles whose last bar is simultaneously a Hammer and a Bullish
Pin Bar (both strength 2): a (bar 3, bullish) dedup collision. -/
def wC5 : OHLCV :=
  ⟨[11, 21/2, 103/10, 10], [11, 21/2, 103/10, 253/25], [11, 21/2, 103/10, 9],
   [11, 21/2, 103/10, 101/10], [1, 1, 1, 1]⟩

/-- 22 strictly increasing closes: sma9 > sma21 > sma50 and current above
all of them. -/
def wC7closes : List ℚ := (List.range 22).map (fun i => (i : ℚ) + 1)

def wC7 : OHLCV := ⟨wC7closes, wC7closes, wC7closes, wC7closes, List.replicate 22 1⟩

/-- Ten candles, seven closing above their open, equal volume: buy% = 70. -/
def wC8 : OHLCV :=
  ⟨[1, 1, 1, 2, 1, 2, 1, 1, 1, 1], [2, 2, 2, 2, 2, 2, 2, 2, 2, 2],
   [1, 1, 1, 1, 1, 1, 1, 1, 1, 1], [2, 2, 2, 1, 2, 1, 2, 2, 2, 1], List.replicate 10 1⟩

/-- A level set with current 100, r1 101, ATR 3: the bullish risk:reward
(101−100)/(100−97) = 1/3 is not representable at one decimal. -/
def ceC6levels : LevelSet := ⟨100, 101, 2, 104, 1, 95, 2, 93, 1, 3, 3, 110, 90, 50⟩

/-- Indicator snapshot used by the C4/C6 concrete inputs. -/
def ceIndicators : Indicators := ⟨50, 1, 50, 50, 1, 1/2, 30⟩

/-- A neutral "up"-direction timeframe dict. -/
def ceTfUp : TrendTF := ⟨"primary", "up", "neutral", 50, 0, 20, "weak"⟩

/-- A neutral "down"-direction timeframe dict. -/
def ceTfDown : TrendTF := ⟨"1h", "down", "neutral", 50, 0, 20, "weak"⟩

def ceC6trend : TrendReport := ⟨"neutral", 0, ceTfUp, ceTfUp, ceTfUp⟩

def ceFlow : FlowReport := ⟨100, "above", "neutral", 1, false, "stable", 50, 50, 5, 5, "balanced"⟩

/-- An overall-bullish trend report whose timeframe directions disagree
(so no all-up bonus applies). -/
def ceC4trend : TrendReport := ⟨"bullish", 2, ceTfUp, ceTfDown, ceTfUp⟩

/-- The BULLISH scenario built from the concrete C6 inputs. -/
def ceC6bull : Scenario :=
  (build_scenarios ceIndicators ceC6levels ceC6trend ceFlow []).headD ⟨"", 0, 0, 0, 0, "", 0⟩

/-! # Theorems -/

/-! ## Rounding and clamping lemmas -/

theorem pyRound_le {x : ℚ} {n : ℤ} (h : x ≤ (n : ℚ)) : pyRound x ≤ n := by
  have hfl : ⌊x⌋ ≤ n := by
    have := Int.floor_le_floor h
    simpa using this
  unfold pyRound
  split_ifs with h1 h2 h3
  · exact hfl
  · have hx2 : (⌊x⌋ : ℚ) + 1/2 ≤ x := by
      have := not_lt.mp h1
      linarith
    have hlt : (⌊x⌋ : ℚ) < (n : ℚ) := by linarith
    have : ⌊x⌋ < n := by exact_mod_cast hlt
    omega
  · exact hfl
  · have hx2 : (⌊x⌋ : ℚ) + 1/2 ≤ x := by
      have := not_lt.mp h1
      linarith
    have hlt : (⌊x⌋ : ℚ) < (n : ℚ) := by linarith
    have : ⌊x⌋ < n := by exact_mod_cast hlt
    omega

theorem le_pyRound {x : ℚ} {n : ℤ} (h : (n : ℚ) ≤ x) : n ≤ pyRound x := by
  have hfl : n ≤ ⌊x⌋ := Int.le_floor.mpr h
  unfold pyRound
  split_ifs <;> omega

theorem pyRound_mono {x y : ℚ} (h : x ≤ y) : pyRound x ≤ pyRound y := by
  have hf : ⌊x⌋ ≤ ⌊y⌋ := Int.floor_le_floor h
  rcases lt_or_eq_of_le hf with hlt | heq
  · have h1 : pyRound x ≤ ⌊x⌋ + 1 := by unfold pyRound; split_ifs <;> omega
    have h2 : ⌊y⌋ ≤ pyRound y := by unfold pyRound; split_ifs <;> omega
    omega
  · have hfq : (⌊x⌋ : ℚ) = (⌊y⌋ : ℚ) := by exact_mod_cast heq
    have hr : x - (⌊y⌋ : ℚ) ≤ y - (⌊y⌋ : ℚ) := by linarith
    unfold pyRound
    rw [heq]
    split_ifs <;> first | omega | linarith

theorem roundTo_le {x : ℚ} {n : ℤ} (d : ℕ) (h : x ≤ (n : ℚ)) : roundTo x d ≤ (n : ℚ) := by
  unfold roundTo
  have h10 : (0 : ℚ) < 10 ^ d := by positivity
  rw [div_le_iff h10]
  have hx : x * 10 ^ d ≤ ((n * 10 ^ d : ℤ) : ℚ) := by
    push_cast
    exact mul_le_mul_of_nonneg_right h (le_of_lt h10)
  have hp := pyRound_le hx
  calc (pyRound (x * 10 ^ d) : ℚ) ≤ ((n * 10 ^ d : ℤ) : ℚ) := by exact_mod_cast hp
    _ = (n : ℚ) * 10 ^ d := by push_cast; ring

theorem le_roundTo {x : ℚ} {n : ℤ} (d : ℕ) (h : (n : ℚ) ≤ x) : (n : ℚ) ≤ roundTo x d := by
  unfold roundTo
  have h10 : (0 : ℚ) < 10 ^ d := by positivity
  rw [le_div_iff h10]
  have hx : ((n * 10 ^ d : ℤ) : ℚ) ≤ x * 10 ^ d := by
    push_cast
    exact mul_le_mul_of_nonneg_right h (le_of_lt h10)
  have hp := le_pyRound hx
  calc (n : ℚ) * 10 ^ d = ((n * 10 ^ d : ℤ) : ℚ) := by push_cast; ring
    _ ≤ (pyRound (x * 10 ^ d) : ℚ) := by exact_mod_cast hp

theorem roundTo_mono {x y : ℚ} (d : ℕ) (h : x ≤ y) : roundTo x d ≤ roundTo y d := by
  unfold roundTo
  have h10 : (0 : ℚ) < 10 ^ d := by positivity
  have hm := pyRound_mono (mul_le_mul_of_nonneg_right h (le_of_lt h10))
  exact (div_le_div_right h10).mpr (by exact_mod_cast hm)

theorem le_clamp (v lo hi : ℚ) : lo ≤ clamp v lo hi := le_max_left _ _

theorem clamp_le (v : ℚ) {lo hi : ℚ} (h : lo ≤ hi) : clamp v lo hi ≤ hi :=
  max_le h (min_le_left _ _)

theorem signalConfidence_nonneg (t m v l p score : ℚ) :
    0 ≤ signalConfidence t m v l p score := by
  unfold signalConfidence
  refine le_min (by norm_num) ?_
  have h1 : (0 : ℚ) ≤ (signalAgreement t m v l p : ℚ) * 20 := by positivity
  have h2 : (0 : ℤ) ≤ ⌊|score| / 2⌋ := Int.floor_nonneg.mpr (by positivity)
  have h2q : (0 : ℚ) ≤ (⌊|score| / 2⌋ : ℚ) := by exact_mod_cast h2
  linarith

theorem signalConfidence_le (t m v l p score : ℚ) :
    signalConfidence t m v l p score ≤ 100 := min_le_left _ _

theorem neg_hundred_le_roundTo {x : ℚ} (d : ℕ) (h : -100 ≤ x) : -100 ≤ roundTo x d := by
  have hq := le_roundTo (x := x) (n := -100) d (by exact_mod_cast h)
  exact_mod_cast hq

theorem roundTo_le_hundred {x : ℚ} (d : ℕ) (h : x ≤ 100) : roundTo x d ≤ 100 := by
  have hq := roundTo_le (x := x) (n := 100) d (by exact_mod_cast h)
  exact_mod_cast hq

theorem pyRound_cast_nonneg {x : ℚ} (h : 0 ≤ x) : (0 : ℚ) ≤ (pyRound x : ℚ) := by
  have hq := le_pyRound (x := x) (n := 0) (by exact_mod_cast h)
  exact_mod_cast hq

theorem pyRound_cast_le_hundred {x : ℚ} (h : x ≤ 100) : (pyRound x : ℚ) ≤ 100 := by
  have hq := pyRound_le (x := x) (n := 100) (by exact_mod_cast h)
  exact_mod_cast hq

/-! ## Claim theorems -/

attribute [local semireducible] Rat.mul Rat.inv Rat.add Rat.sub Rat.ofScientific

/-- C1: for every input (indicator snapshot, level set, trend report, flow
report, pattern list), the composite signal returned by `compute_signal` has
a score in [-100, 100] and a confidence value in [0, 100]. -/
theorem C1_signal_score_confidence_bounds (indicators : Indicators) (levels : LevelSet)
    (trend : TrendReport) (flow : FlowReport) (patterns : List Pat) :
    (-100 ≤ (compute_signal indicators levels trend flow patterns).score ∧
        (compute_signal indicators levels trend flow patterns).score ≤ 100) ∧
      (0 ≤ (compute_signal indicators levels trend flow patterns).confidence ∧
        (compute_signal indicators levels trend flow patterns).confidence ≤ 100) := by
  have hs : (compute_signal indicators levels trend flow patterns).score =
      roundTo (clamp (score_trend trend + score_momentum indicators + score_volume flow +
        score_levels indicators levels + score_patterns patterns) (-100) 100) 1 := rfl
  have hc : (compute_signal indicators levels trend flow patterns).confidence =
      (pyRound (signalConfidence (score_trend trend) (score_momentum indicators)
        (score_volume flow) (score_levels indicators levels) (score_patterns patterns)
        (clamp (score_trend trend + score_momentum indicators + score_volume flow +
          score_levels indicators levels + score_patterns patterns) (-100) 100)) : ℚ) := rfl
  refine ⟨⟨?_, ?_⟩, ?_, ?_⟩
  · rw [hs]
    exact neg_hundred_le_roundTo 1 (le_clamp _ _ _)
  · rw [hs]
    exact roundTo_le_hundred 1 (clamp_le _ (by norm_num))
  · rw [hc]
    exact pyRound_cast_nonneg (signalConfidence_nonneg _ _ _ _ _ _)
  · rw [hc]
    exact pyRound_cast_le_hundred (signalConfidence_le _ _ _ _ _ _)

/-- C4: the composite score is the (1-decimal-rounded) clamp of the plain
unweighted sum of the five bounded sub-scores; the declared category weight
constants are never multiplied in, and a weights-scaled variant disagrees
with the implementation at a concrete input. -/
theorem C4_unweighted_composite :
    (∀ (indicators : Indicators) (levels : LevelSet) (trend : TrendReport)
        (flow : FlowReport) (patterns : List Pat),
        (compute_signal indicators levels trend flow patterns).score =
          roundTo (refScoreUnweighted (score_trend trend) (score_momentum indicators)
            (score_volume flow) (score_levels indicators levels)
            (score_patterns patterns)) 1) ∧
      (compute_signal ceIndicators ceC6levels ceC4trend ceFlow []).score ≠
        roundTo (refScoreWeighted (score_trend ceC4trend) (score_momentum ceIndicators)
          (score_volume ceFlow) (score_levels ceIndicators ceC6levels)
          (score_patterns [])) 1 := by
  constructor
  · intro indicators levels trend flow patterns
    rfl
  · decide

/-- C6 (amended): for the BULLISH scenario, the reported risk:reward ratio
equals (target2 − current)/(current − stop) rounded to one decimal when the
current price differs from the stop, and is 0 when they are equal. -/
theorem C6_bullish_rr_formula (indicators : Indicators) (levels : LevelSet)
    (trend : TrendReport) (flow : FlowReport) (patterns : List Pat) :
    ∃ b : Scenario,
      (build_scenarios indicators levels trend flow patterns).head? = some b ∧
        b.label = "BULLISH" ∧
        b.rr_ratio =
          (if levels.current ≠ b.stop then
            roundTo ((b.target2 - levels.current) / (levels.current - b.stop)) 1
          else 0) :=
  ⟨_, rfl, rfl, rfl⟩

/-- C6 counterexample: at a concrete input with current 100, ATR 3 and
r1 = 101 the reported ratio is 0.3, not the exact formula value 1/3. -/
theorem C6_rr_rounding_counterexample :
    ceC6bull.label = "BULLISH" ∧ ceC6levels.current ≠ ceC6bull.stop ∧
      ceC6bull.rr_ratio ≠
        (ceC6bull.target2 - ceC6levels.current) / (ceC6levels.current - ceC6bull.stop) := by
  decide

/-- C9: with fewer than `period` true-range samples (i.e. fewer than
`period + 1` candles), `adx` returns the neutral default triple
ADX 25, +DI 50, −DI 50 (and, being total, raises no error). -/
theorem C9_adx_neutral_default (highs lows closes : List ℚ) (period : ℕ)
    (hp : 1 ≤ period) (hlen : closes.length < period + 1) :
    adxCompute highs lows closes period = ⟨25, 50, 50⟩ := by
  have hlt : (trTail highs lows closes).length < period := by
    unfold trTail
    rw [List.length_map, List.length_range']
    omega
  simp only [adxCompute]
  rw [if_pos hlt]

/-- C7: the trend direction is classified by the five rules in priority
order, first match winning: (1) sma9 > sma21 > sma50 and current > sma9 ⇒
strong_up; (2) else sma9 > sma21 and current > sma21 ⇒ up; (3) else
sma9 < sma21 < sma50 and current < sma9 ⇒ strong_down; (4) else
sma9 < sma21 and current < sma21 ⇒ down; (5) else sideways. -/
theorem C7_direction_priority (data : OHLCV) (label : String) (hne : data.closes ≠ []) :
    (sma_last data.closes SMA_FAST > sma_last data.closes SMA_MID ∧
        sma_last data.closes SMA_MID > sma_last data.closes SMA_SLOW ∧
        data.closes.getLastD 0 > sma_last data.closes SMA_FAST →
      (single_tf data label).direction = "strong_up") ∧
    (¬(sma_last data.closes SMA_FAST > sma_last data.closes SMA_MID ∧
        sma_last data.closes SMA_MID > sma_last data.closes SMA_SLOW ∧
        data.closes.getLastD 0 > sma_last data.closes SMA_FAST) →
      sma_last data.closes SMA_FAST > sma_last data.closes SMA_MID ∧
        data.closes.getLastD 0 > sma_last data.closes SMA_MID →
      (single_tf data label).direction = "up") ∧
    (¬(sma_last data.closes SMA_FAST > sma_last data.closes SMA_MID ∧
        sma_last data.closes SMA_MID > sma_last data.closes SMA_SLOW ∧
        data.closes.getLastD 0 > sma_last data.closes SMA_FAST) →
      ¬(sma_last data.closes SMA_FAST > sma_last data.closes SMA_MID ∧
        data.closes.getLastD 0 > sma_last data.closes SMA_MID) →
      sma_last data.closes SMA_FAST < sma_last data.closes SMA_MID ∧
        sma_last data.closes SMA_MID < sma_last data.closes SMA_SLOW ∧
        data.closes.getLastD 0 < sma_last data.closes SMA_FAST →
      (single_tf data label).direction = "strong_down") ∧
    (¬(sma_last data.closes SMA_FAST > sma_last data.closes SMA_MID ∧
        sma_last data.closes SMA_MID > sma_last data.closes SMA_SLOW ∧
        data.closes.getLastD 0 > sma_last data.closes SMA_FAST) →
      ¬(sma_last data.closes SMA_FAST > sma_last data.closes SMA_MID ∧
        data.closes.getLastD 0 > sma_last data.closes SMA_MID) →
      ¬(sma_last data.closes SMA_FAST < sma_last data.closes SMA_MID ∧
        sma_last data.closes SMA_MID < sma_last data.closes SMA_SLOW ∧
        data.closes.getLastD 0 < sma_last data.closes SMA_FAST) →
      sma_last data.closes SMA_FAST < sma_last data.closes SMA_MID ∧
        data.closes.getLastD 0 < sma_last data.closes SMA_MID →
      (single_tf data label).direction = "down") ∧
    (¬(sma_last data.closes SMA_FAST > sma_last data.closes SMA_MID ∧
        sma_last data.closes SMA_MID > sma_last data.closes SMA_SLOW ∧
        data.closes.getLastD 0 > sma_last data.closes SMA_FAST) →
      ¬(sma_last data.closes SMA_FAST > sma_last data.closes SMA_MID ∧
        data.closes.getLastD 0 > sma_last data.closes SMA_MID) →
      ¬(sma_last data.closes SMA_FAST < sma_last data.closes SMA_MID ∧
        sma_last data.closes SMA_MID < sma_last data.closes SMA_SLOW ∧
        data.closes.getLastD 0 < sma_last data.closes SMA_FAST) →
      ¬(sma_last data.closes SMA_FAST < sma_last data.closes SMA_MID ∧
        data.closes.getLastD 0 < sma_last data.closes SMA_MID) →
      (single_tf data label).direction = "sideways") := by
  have hd : (single_tf data label).direction =
      (if sma_last data.closes SMA_FAST > sma_last data.closes SMA_MID ∧
          sma_last data.closes SMA_MID > sma_last data.closes SMA_SLOW ∧
          data.closes.getLastD 0 > sma_last data.closes SMA_FAST then "strong_up"
        else if sma_last data.closes SMA_FAST > sma_last data.closes SMA_MID ∧
          data.closes.getLastD 0 > sma_last data.closes SMA_MID then "up"
        else if sma_last data.closes SMA_FAST < sma_last data.closes SMA_MID ∧
          sma_last data.closes SMA_MID < sma_last data.closes SMA_SLOW ∧
          data.closes.getLastD 0 < sma_last data.closes SMA_FAST then "strong_down"
        else if sma_last data.closes SMA_FAST < sma_last data.closes SMA_MID ∧
          data.closes.getLastD 0 < sma_last data.closes SMA_MID then "down"
        else "sideways") := rfl
  refine ⟨fun h1 => ?_, fun hn1 h2 => ?_, fun hn1 hn2 h3 => ?_,
    fun hn1 hn2 hn3 h4 => ?_, fun hn1 hn2 hn3 hn4 => ?_⟩
  · rw [hd, if_pos h1]
  · rw [hd, if_neg hn1, if_pos h2]
  · rw [hd, if_neg hn1, if_neg hn2, if_pos h3]
  · rw [hd, if_neg hn1, if_neg hn2, if_neg hn3, if_pos h4]
  · rw [hd, if_neg hn1, if_neg hn2, if_neg hn3, if_neg hn4]

/-- C7 witness: 22 strictly increasing closes classify as strong_up. -/
theorem C7_direction_priority_witness :
    wC7.closes ≠ [] ∧
      (sma_last wC7.closes SMA_FAST > sma_last wC7.closes SMA_MID ∧
        sma_last wC7.closes SMA_MID > sma_last wC7.closes SMA_SLOW ∧
        wC7.closes.getLastD 0 > sma_last wC7.closes SMA_FAST) ∧
      (single_tf wC7 "primary").direction = "strong_up" :=
  ⟨by decide, by decide, (C7_direction_priority wC7 "primary" (by decide)).1 (by decide)⟩

/-- C8: the money-flow classification follows the spec's decision chain —
strong_inflow iff buy% > 60 and OBV rising; otherwise inflow iff buy% > 55;
otherwise strong_outflow iff buy% < 40 and OBV falling; otherwise outflow
iff buy% < 45; otherwise balanced — where buy% is the buy-volume percentage
over the last 10 candles (1-decimal rounded, as reported), defaulting to 50
when total recent volume is zero.  The length hypotheses delimit the domain
on which the last-10-candles embedding is faithful to Python's negative
indexing (shorter input raises IndexError in the source). -/
theorem C8_flow_classification (ohlcv ohlcv_1h ohlcv_4h : OHLCV)
    (h10 : 10 ≤ ohlcv.closes.length)
    (hlo : ohlcv.opens.length = ohlcv.closes.length)
    (hlv : ohlcv.volumes.length = ohlcv.closes.length) :
    (analyze_money_flow ohlcv ohlcv_1h ohlcv_4h).flow =
        refFlowClass (analyze_money_flow ohlcv ohlcv_1h ohlcv_4h).buy_pct
          (obv_trend ohlcv.closes ohlcv.volumes) ∧
      (analyze_money_flow ohlcv ohlcv_1h ohlcv_4h).buy_pct =
        (if (((last10Triples ohlcv).filter (fun p => p.1.1 > p.1.2)).map (·.2)).sum +
              (((last10Triples ohlcv).filter (fun p => p.1.1 ≤ p.1.2)).map (·.2)).sum > 0 then
          roundTo ((((last10Triples ohlcv).filter (fun p => p.1.1 > p.1.2)).map (·.2)).sum /
            ((((last10Triples ohlcv).filter (fun p => p.1.1 > p.1.2)).map (·.2)).sum +
              (((last10Triples ohlcv).filter (fun p => p.1.1 ≤ p.1.2)).map (·.2)).sum) * 100) 1
        else 50) :=
  ⟨rfl, rfl⟩

/-- C8 witness: ten candles with seven up-closes and equal volume give
buy% = 70 and flow = inflow, matching the reference chain. -/
theorem C8_flow_classification_witness :
    10 ≤ wC8.closes.length ∧ wC8.opens.length = wC8.closes.length ∧
      wC8.volumes.length = wC8.closes.length ∧
      (analyze_money_flow wC8 wC8 wC8).flow =
        refFlowClass (analyze_money_flow wC8 wC8 wC8).buy_pct
          (obv_trend wC8.closes wC8.volumes) ∧
      (analyze_money_flow wC8 wC8 wC8).flow = "inflow" :=
  ⟨by decide, by decide, by decide,
    (C8_flow_classification wC8 wC8 wC8 (by decide) (by decide) (by decide)).1, by decide⟩

/-- C9 witness: a 5-candle series with the default period 14. -/
theorem C9_adx_neutral_default_witness :
    1 ≤ 14 ∧ ([(1 : ℚ), 2, 3, 4, 5] : List ℚ).length < 14 + 1 ∧
      adxCompute [1, 2, 3, 4, 5] [0, 1, 2, 3, 4] [1, 2, 3, 4, 5] 14 = ⟨25, 50, 50⟩ :=
  ⟨by norm_num, by decide,
    C9_adx_neutral_default [1, 2, 3, 4, 5] [0, 1, 2, 3, 4] [1, 2, 3, 4, 5] 14
      (by norm_num) (by decide)⟩

/-! ## Deduplication lemmas (for C5 and C10) -/

theorem champ_cons (o : Option Pat) (p : Pat) (l : List Pat) :
    champ o (p :: l) = champ (some (champStep o p)) l := by
  cases o <;> rfl

theorem champ_nil (o : Option Pat) : champ o [] = o := by
  cases o <;> rfl

theorem lookupKey_eq_none {seen : List ((ℕ × String) × Pat)} {k : ℕ × String}
    (h : lookupKey seen k = none) : ∀ e ∈ seen, e.1 ≠ k := by
  induction seen with
  | nil => intro e he; cases he
  | cons e rest ih =>
    intro e' he'
    unfold lookupKey at h
    by_cases hek : e.1 = k
    · rw [if_pos hek] at h; cases h
    · rw [if_neg hek] at h
      rcases List.mem_cons.mp he' with rfl | hmem
      · exact hek
      · exact ih h e' hmem

theorem lookupKey_append (l1 l2 : List ((ℕ × String) × Pat)) (k : ℕ × String) :
    lookupKey (l1 ++ l2) k =
      (match lookupKey l1 k with
        | some q => some q
        | none => lookupKey l2 k) := by
  induction l1 with
  | nil => rfl
  | cons e t ih =>
    by_cases hek : e.1 = k
    · simp [lookupKey, hek]
    · simp [lookupKey, hek, ih]

theorem lookupKey_map_update {seen : List ((ℕ × String) × Pat)} {k : ℕ × String} {q : Pat}
    (p : Pat) (h : lookupKey seen k = some q) :
    lookupKey (seen.map (fun e => if e.1 = k then (k, p) else e)) k = some p := by
  induction seen with
  | nil => cases h
  | cons e t ih =>
    by_cases hek : e.1 = k
    · simp [lookupKey, hek]
    · rw [List.map_cons, show (if e.1 = k then (k, p) else e) = e from if_neg hek]
      unfold lookupKey
      rw [if_neg hek]
      unfold lookupKey at h
      rw [if_neg hek] at h
      exact ih h

theorem lookupKey_map_update_ne {k k' : ℕ × String} (seen : List ((ℕ × String) × Pat))
    (p : Pat) (hne : k ≠ k') :
    lookupKey (seen.map (fun e => if e.1 = k then (k, p) else e)) k' = lookupKey seen k' := by
  induction seen with
  | nil => rfl
  | cons e t ih =>
    by_cases hek : e.1 = k
    · rw [List.map_cons, show (if e.1 = k then (k, p) else e) = (k, p) from if_pos hek]
      unfold lookupKey
      rw [if_neg hne, if_neg (hek ▸ hne)]
      exact ih
    · rw [List.map_cons, show (if e.1 = k then (k, p) else e) = e from if_neg hek]
      unfold lookupKey
      by_cases hek' : e.1 = k'
      · rw [if_pos hek', if_pos hek']
      · rw [if_neg hek', if_neg hek']
        exact ih

theorem lookupKey_dedupStep_self (seen : List ((ℕ × String) × Pat)) (p : Pat) :
    lookupKey (dedupStep seen p) (pkey p) = some (champStep (lookupKey seen (pkey p)) p) := by
  cases hl : lookupKey seen (pkey p) with
  | none =>
    simp only [dedupStep, hl]
    rw [lookupKey_append, hl]
    simp [lookupKey, champStep]
  | some q =>
    simp only [dedupStep, hl]
    by_cases hs : q.strength < p.strength
    · rw [if_pos hs]
      rw [lookupKey_map_update p hl]
      simp [champStep, hs]
    · rw [if_neg hs, hl]
      simp [champStep, hs]

theorem lookupKey_dedupStep_ne (seen : List ((ℕ × String) × Pat)) (p : Pat)
    {k : ℕ × String} (hne : pkey p ≠ k) :
    lookupKey (dedupStep seen p) k = lookupKey seen k := by
  cases hl : lookupKey seen (pkey p) with
  | none =>
    simp only [dedupStep, hl]
    rw [lookupKey_append]
    cases hk : lookupKey seen k with
    | some q => rfl
    | none => simp [lookupKey, hne]
  | some q =>
    simp only [dedupStep, hl]
    by_cases hs : q.strength < p.strength
    · rw [if_pos hs]
      exact lookupKey_map_update_ne seen p hne
    · rw [if_neg hs]

theorem dedupStep_wf {seen : List ((ℕ × String) × Pat)} (p : Pat)
    (hwf : WellFormedSeen seen) : WellFormedSeen (dedupStep seen p) := by
  obtain ⟨hnd, hkeys⟩ := hwf
  cases hl : lookupKey seen (pkey p) with
  | none =>
    simp only [dedupStep, hl]
    constructor
    · rw [List.map_append]
      refine List.Nodup.append hnd (by simp) ?_
      intro a ha hb
      simp only [List.map_cons, List.map_nil, List.mem_singleton] at hb
      obtain ⟨e, he, hek⟩ := List.mem_map.mp ha
      exact (lookupKey_eq_none hl e he) (hek.trans hb)
    · intro e he
      rcases List.mem_append.mp he with h1 | h2
      · exact hkeys e h1
      · simp only [List.mem_singleton] at h2
        subst h2
        rfl
  | some q =>
    simp only [dedupStep, hl]
    by_cases hs : q.strength < p.strength
    · rw [if_pos hs]
      have hfst : (seen.map (fun e => if e.1 = pkey p then (pkey p, p) else e)).map (·.1) =
          seen.map (·.1) := by
        rw [List.map_map]
        apply List.map_congr_left
        intro e _
        by_cases hek : e.1 = pkey p
        · simp [hek]
        · simp [hek]
      constructor
      · rw [hfst]; exact hnd
      · intro e he
        obtain ⟨e', he', hee⟩ := List.mem_map.mp he
        by_cases hek : e'.1 = pkey p
        · rw [if_pos hek] at hee
          subst hee
          rfl
        · rw [if_neg hek] at hee
          subst hee
          exact hkeys e' he'
    · rw [if_neg hs]
      exact ⟨hnd, hkeys⟩

theorem wellFormedSeen_nil : WellFormedSeen [] :=
  ⟨List.nodup_nil, fun e he => absurd he (List.not_mem_nil e)⟩

theorem filter_key_of_wf : ∀ {seen : List ((ℕ × String) × Pat)}, WellFormedSeen seen →
    ∀ k : ℕ × String, seen.filter (fun e => e.1 = k) = champEntry k (lookupKey seen k) := by
  intro seen
  induction seen with
  | nil => intro _ _; rfl
  | cons e t ih =>
    intro hwf k
    obtain ⟨hnd, hkeys⟩ := hwf
    rw [List.map_cons] at hnd
    have hnd' := List.nodup_cons.mp hnd
    have hwt : WellFormedSeen t := ⟨hnd'.2, fun a ha => hkeys a (List.mem_cons_of_mem _ ha)⟩
    by_cases hek : e.1 = k
    · rw [List.filter_cons_of_pos (by simp [hek])]
      have ht : t.filter (fun e => e.1 = k) = [] := by
        rw [List.filter_eq_nil_iff]
        intro a ha
        simp only [decide_eq_true_eq]
        intro hak
        exact hnd'.1 (by rw [hek, ← hak]; exact List.mem_map_of_mem _ ha)
      rw [ht]
      unfold lookupKey
      rw [if_pos hek]
      have : e = (k, e.2) := by
        cases e
        simp_all
      rw [this]
      rfl
    · rw [List.filter_cons_of_neg (by simp [hek])]
      unfold lookupKey
      rw [if_neg hek]
      exact ih hwt k

theorem dedupLoop_wf (ps : List Pat) :
    ∀ seen, WellFormedSeen seen → WellFormedSeen (dedupLoop seen ps) := by
  induction ps with
  | nil => intro seen hwf; exact hwf
  | cons p rest ih => intro seen hwf; exact ih _ (dedupStep_wf p hwf)

theorem dedupe_wf (ps : List Pat) : WellFormedSeen (dedupe ps) :=
  dedupLoop_wf ps [] wellFormedSeen_nil

theorem dedupLoop_filter (ps : List Pat) :
    ∀ (seen : List ((ℕ × String) × Pat)) (k : ℕ × String), WellFormedSeen seen →
      (dedupLoop seen ps).filter (fun e => e.1 = k) =
        champEntry k (champ (lookupKey seen k) (ps.filter (fun p => pkey p = k))) := by
  induction ps with
  | nil =>
    intro seen k hwf
    rw [dedupLoop, List.filter_nil, champ_nil]
    exact filter_key_of_wf hwf k
  | cons p rest ih =>
    intro seen k hwf
    have hstep := ih (dedupStep seen p) k (dedupStep_wf p hwf)
    rw [dedupLoop, hstep]
    by_cases hk : pkey p = k
    · subst hk
      rw [List.filter_cons_of_pos (by simp), champ_cons, lookupKey_dedupStep_self]
    · rw [List.filter_cons_of_neg (by simp [hk]), lookupKey_dedupStep_ne _ _ hk]

theorem map_snd_filter : ∀ {seen : List ((ℕ × String) × Pat)},
    (∀ e ∈ seen, e.1 = pkey e.2) → ∀ k : ℕ × String,
      (seen.map (·.2)).filter (fun p => pkey p = k) =
        (seen.filter (fun e => e.1 = k)).map (·.2) := by
  intro seen
  induction seen with
  | nil => intro _ _; rfl
  | cons e t ih =>
    intro hkeys k
    have he1 : e.1 = pkey e.2 := hkeys e (List.mem_cons_self e t)
    have ht := ih (fun a ha => hkeys a (List.mem_cons_of_mem _ ha)) k
    by_cases hk : pkey e.2 = k
    · rw [List.map_cons, List.filter_cons_of_pos (by simp [hk]),
        List.filter_cons_of_pos (by simp [he1, hk]), List.map_cons, ht]
    · rw [List.map_cons, List.filter_cons_of_neg (by simp [hk]),
        List.filter_cons_of_neg (by simp [he1, hk]), ht]

theorem champEntry_map_snd (k : ℕ × String) (o : Option Pat) :
    (champEntry k o).map (·.2) = o.toList := by
  cases o <;> rfl

/-! ## Champion vs first-max lemmas -/

theorem foldl_max_shift (l : List ℕ) (a b : ℕ) :
    l.foldl max (max a b) = max (l.foldl max a) b := by
  induction l generalizing a with
  | nil => rfl
  | cons x t ih =>
    simp only [List.foldl_cons]
    rw [show max (max a b) x = max (max a x) b by
      rw [Nat.max_assoc, Nat.max_comm b x, ← Nat.max_assoc], ih]

theorem maxStrength_cons (p : Pat) (l : List Pat) :
    maxStrength (p :: l) = max (maxStrength l) p.strength := by
  unfold maxStrength
  simp only [List.map_cons, List.foldl_cons]
  rw [show max 0 p.strength = max (max 0 p.strength) 0 from (Nat.max_zero _).symm]
  rw [foldl_max_shift, foldl_max_shift]
  omega

theorem le_maxStrength_of_mem {p : Pat} {l : List Pat} (h : p ∈ l) :
    p.strength ≤ maxStrength l := by
  induction l with
  | nil => cases h
  | cons q t ih =>
    rw [maxStrength_cons]
    rcases List.mem_cons.mp h with rfl | hm
    · exact le_max_right _ _
    · exact le_trans (ih hm) (le_max_left _ _)

theorem maxStrength_attained {l : List Pat} (h : l ≠ []) :
    ∃ p ∈ l, maxStrength l ≤ p.strength := by
  induction l with
  | nil => exact absurd rfl h
  | cons x t ih =>
    cases t with
    | nil =>
      refine ⟨x, List.mem_cons_self x [], ?_⟩
      rw [maxStrength_cons]
      simp [maxStrength]
    | cons y u =>
      obtain ⟨p, hp, hmax⟩ := ih (by simp)
      rw [maxStrength_cons]
      by_cases hx : maxStrength (y :: u) ≤ x.strength
      · exact ⟨x, List.mem_cons_self x _, by omega⟩
      · exact ⟨p, List.mem_cons_of_mem _ hp, by omega⟩

theorem find?_cons_pos (p : α → Bool) (a : α) (l : List α) (h : p a = true) :
    (a :: l).find? p = some a := by
  simp [List.find?, h]

theorem find?_cons_neg (p : α → Bool) (a : α) (l : List α) (h : p a = false) :
    (a :: l).find? p = l.find? p := by
  simp [List.find?, h]

theorem champ_some_eq_firstMax (l : List Pat) : ∀ q : Pat, champ (some q) l = firstMax (q :: l) := by
  induction l with
  | nil =>
    intro q
    have hm : maxStrength [q] = q.strength := by
      rw [maxStrength_cons]
      simp [maxStrength]
    unfold champ firstMax
    rw [hm]
    simp [List.find?]
  | cons p t ih =>
    intro q
    rw [show champ (some q) (p :: t) = champ (some (if q.strength < p.strength then p else q)) t
        from rfl, ih]
    have hM : maxStrength ((if q.strength < p.strength then p else q) :: t) =
        maxStrength (q :: p :: t) := by
      rw [maxStrength_cons, maxStrength_cons, maxStrength_cons]
      split_ifs <;> omega
    unfold firstMax
    rw [hM]
    by_cases hq : maxStrength (q :: p :: t) ≤ q.strength
    · have hpq : ¬ q.strength < p.strength := by
        have := le_maxStrength_of_mem (List.mem_cons_of_mem q (List.mem_cons_self p t))
        omega
      rw [if_neg hpq]
      rw [find?_cons_pos _ q t (decide_eq_true hq),
        find?_cons_pos _ q (p :: t) (decide_eq_true hq)]
    · by_cases hp : maxStrength (q :: p :: t) ≤ p.strength
      · have hqp : q.strength < p.strength := by omega
        rw [if_pos hqp]
        rw [find?_cons_neg _ q (p :: t) (decide_eq_false hq)]
      · have hr : (if q.strength < p.strength then p else q).strength < maxStrength (q :: p :: t) := by
          split_ifs <;> omega
        rw [find?_cons_neg _ _ t (decide_eq_false (by omega)),
          find?_cons_neg _ q (p :: t) (decide_eq_false hq), find?_cons_neg _ p t (decide_eq_false hp)]

theorem champ_none_eq_firstMax (l : List Pat) : champ none l = firstMax l := by
  cases l with
  | nil => rfl
  | cons p t =>
    rw [show champ none (p :: t) = champ (some p) t from rfl]
    exact champ_some_eq_firstMax t p

/-- The key filtering identity: at every key, the final deduplicated list
holds exactly the first maximal-strength colliding raw match (or nothing). -/
theorem detect_patterns_filter (ohlcv : OHLCV) (k : ℕ × String) :
    (detect_patterns ohlcv).filter (fun p => pkey p = k) = (firstMax (collOf ohlcv k)).toList := by
  have hperm : List.Perm ((detect_patterns ohlcv).filter (fun p => pkey p = k))
      (((dedupe (rawPatterns ohlcv)).map (·.2)).filter (fun p => pkey p = k)) :=
    (List.perm_insertionSort byIndexDesc _).filter _
  rw [map_snd_filter (dedupe_wf (rawPatterns ohlcv)).2 k] at hperm
  rw [show dedupe (rawPatterns ohlcv) = dedupLoop [] (rawPatterns ohlcv) from rfl] at hperm
  rw [dedupLoop_filter (rawPatterns ohlcv) [] k wellFormedSeen_nil] at hperm
  rw [champEntry_map_snd] at hperm
  rw [show lookupKey [] k = none from rfl] at hperm
  rw [champ_none_eq_firstMax] at hperm
  cases hfm : firstMax ((rawPatterns ohlcv).filter (fun p => pkey p = k)) with
  | none =>
    rw [hfm] at hperm
    rw [show collOf ohlcv k = (rawPatterns ohlcv).filter (fun p => pkey p = k) from rfl, hfm]
    exact hperm.eq_nil
  | some c =>
    rw [hfm] at hperm
    rw [show collOf ohlcv k = (rawPatterns ohlcv).filter (fun p => pkey p = k) from rfl, hfm]
    exact List.perm_singleton.mp hperm

/-- C5: whenever multiple raw detector matches share the same (bar index,
bias) pair, the final `detect_patterns` list contains exactly one match for
that pair, and its strength is the maximum among the colliding raw matches. -/
theorem C5_dedup_unique_max (ohlcv : OHLCV) (k : ℕ × String)
    (h2 : 2 ≤ (collOf ohlcv k).length) :
    ∃ q : Pat, (detect_patterns ohlcv).filter (fun p => pkey p = k) = [q] ∧
      q.strength = maxStrength (collOf ohlcv k) := by
  have hne : collOf ohlcv k ≠ [] := by
    intro h
    rw [h] at h2
    simp at h2
  obtain ⟨q, hq⟩ : ∃ q, firstMax (collOf ohlcv k) = some q := by
    cases hfm : firstMax (collOf ohlcv k) with
    | some q => exact ⟨q, rfl⟩
    | none =>
      exfalso
      obtain ⟨p, hp, hmax⟩ := maxStrength_attained hne
      have := List.find?_eq_none.mp hfm p hp
      simp [hmax] at this
  refine ⟨q, ?_, ?_⟩
  · rw [detect_patterns_filter, hq]
    rfl
  · have h1 := List.find?_some hq
    have hmem := List.mem_of_find?_eq_some hq
    have hle := le_maxStrength_of_mem hmem
    simp only [decide_eq_true_eq] at h1
    omega

/-- C5 witness: in `wC5`, bar 3 is both a Hammer and a Bullish Pin Bar
(two raw matches for key (3, bullish)); the final list keeps exactly one,
of maximal strength 2. -/
theorem C5_dedup_unique_max_witness :
    2 ≤ (collOf wC5 (3, "bullish")).length ∧
      ∃ q : Pat, (detect_patterns wC5).filter (fun p => pkey p = (3, "bullish")) = [q] ∧
        q.strength = maxStrength (collOf wC5 (3, "bullish")) :=
  ⟨by decide, C5_dedup_unique_max wC5 (3, "bullish") (by decide)⟩

/-- C10: on an equal-strength collision the first-inserted raw match — the
one from the earlier detector in the fixed per-bar order — survives: the
surviving match for a key is always the first colliding raw match attaining
the maximum strength, since replacement requires strictly greater strength. -/
theorem C10_dedup_tie_keeps_first (ohlcv : OHLCV) (k : ℕ × String)
    (hne : collOf ohlcv k ≠ []) :
    ∃ c : Pat,
      (collOf ohlcv k).find? (fun p => maxStrength (collOf ohlcv k) ≤ p.strength) = some c ∧
        (detect_patterns ohlcv).filter (fun p => pkey p = k) = [c] := by
  obtain ⟨c, hc⟩ : ∃ c, firstMax (collOf ohlcv k) = some c := by
    cases hfm : firstMax (collOf ohlcv k) with
    | some c => exact ⟨c, rfl⟩
    | none =>
      exfalso
      obtain ⟨p, hp, hmax⟩ := maxStrength_attained hne
      have := List.find?_eq_none.mp hfm p hp
      simp [hmax] at this
  refine ⟨c, hc, ?_⟩
  rw [detect_patterns_filter, hc]
  rfl

/-- C10 witness: the Hammer and the Bullish Pin Bar at bar 3 of `wC5` have
equal strength 2; the survivor is the Hammer, produced by the earlier
detector. -/
theorem C10_dedup_tie_keeps_first_witness :
    (collOf wC5 (3, "bullish")) ≠ [] ∧
      (∃ c : Pat,
        (collOf wC5 (3, "bullish")).find?
            (fun p => maxStrength (collOf wC5 (3, "bullish")) ≤ p.strength) = some c ∧
          (detect_patterns wC5).filter (fun p => pkey p = (3, "bullish")) = [c]) ∧
      (detect_patterns wC5).filter (fun p => pkey p = (3, "bullish")) =
        [⟨"Hammer", "bullish", 2, 3, 0⟩] :=
  ⟨by decide, C10_dedup_tie_keeps_first wC5 (3, "bullish") (by decide), by decide⟩

/-! ## Zero-range window lemmas (for C2) -/

theorem getLastD_map_range (f : ℕ → α) (n : ℕ) (d : α) (h : 0 < n) :
    ((List.range n).map f).getLastD d = f (n - 1) := by
  obtain ⟨m, rfl⟩ : ∃ m, n = m + 1 := ⟨n - 1, by omega⟩
  rw [List.range_succ, List.map_append]
  simp

theorem slice_last_eq_lastN (l : List ℚ) (n k : ℕ) (hlen : l.length = n) :
    slice l (n - k) n = lastN l k := by
  unfold slice lastN
  rw [← hlen, List.take_length]

theorem sqrtQ_zero : sqrtQ 0 = 0 := by
  unfold sqrtQ
  rw [show (0 : ℚ).num.toNat = 0 from rfl, show (0 : ℚ).den = 1 from rfl]
  rw [show Nat.sqrt 0 = 0 from by decide, show Nat.sqrt 1 = 1 from by decide]
  norm_num

theorem sma_getD_last (closes : List ℚ) (h20 : 20 ≤ closes.length)
    (hconst : ∀ x ∈ lastN closes 20, x = closes.getLastD 0) :
    (sma closes 20).getD (closes.length - 1) none = some (closes.getLastD 0) := by
  have hlenN : (lastN closes 20).length = 20 := by
    unfold lastN
    rw [List.length_drop]
    omega
  have hsum : (lastN closes 20).sum = 20 * closes.getLastD 0 := by
    rw [List.sum_eq_card_nsmul _ _ hconst, hlenN, nsmul_eq_mul]
    norm_num
  have hmean : (lastN closes 20).sum / ((20 : ℕ) : ℚ) = closes.getLastD 0 := by
    rw [hsum]
    push_cast
    exact mul_div_cancel_left₀ _ (by norm_num)
  unfold sma
  rw [List.getD_eq_getElem?_getD]
  rw [List.getElem?_append_right (by rw [List.length_replicate]; omega)]
  rw [List.length_replicate, List.getElem?_map]
  rw [List.getElem?_eq_getElem (by rw [List.length_range']; omega)]
  rw [List.getElem_range']
  simp only [Option.map_some', Option.getD_some]
  have hidx : 20 - 1 + 1 * (closes.length - 1 - (20 - 1)) = closes.length - 1 := by omega
  rw [hidx]
  rw [show closes.length - 1 + 1 = closes.length from by omega]
  rw [slice_last_eq_lastN closes closes.length 20 rfl, hmean]

theorem bbBandAt_const (closes : List ℚ) (h20 : 20 ≤ closes.length)
    (hconst : ∀ x ∈ lastN closes 20, x = closes.getLastD 0) :
    bbBandAt closes 20 2 (sma closes 20) (closes.length - 1) =
      (some (closes.getLastD 0), some (closes.getLastD 0)) := by
  have hmidE := sma_getD_last closes h20 hconst
  simp only [bbBandAt]
  split
  · next heq =>
    rw [hmidE] at heq
    cases heq
  · next mean heq =>
    rw [hmidE] at heq
    injection heq with hmc
    subst hmc
    rw [show closes.length - 1 + 1 = closes.length from by omega]
    rw [slice_last_eq_lastN closes closes.length 20 rfl]
    have hvar0 : ((lastN closes 20).map (fun x => (x - closes.getLastD 0) ^ 2)).sum = 0 := by
      apply List.sum_eq_zero
      intro y hy
      obtain ⟨x, hx, rfl⟩ := List.mem_map.mp hy
      rw [hconst x hx]
      ring
    rw [hvar0]
    rw [zero_div, sqrtQ_zero]
    norm_num

/-- C2 (amended): Stochastic %K is exactly 50 whenever its own rolling
window (the last 14 bars) has max high equal to min low, and Bollinger %B
is exactly 0.5 whenever the Bollinger window (the last 20 closes, with at
least 20 bars present) is constant — the conditions under which the
zero-range fallbacks actually fire. -/
theorem C2_zero_range_window (highs lows closes : List ℚ)
    (hh : highs.length = closes.length) (hl : lows.length = closes.length)
    (hne : closes ≠ []) :
    (listMax (lastN highs 14) = listMin (lastN lows 14) →
      stochastic_last_k highs lows closes = 50) ∧
    (20 ≤ closes.length → (∀ x ∈ lastN closes 20, x = closes.getLastD 0) →
      (bb_last closes).map (fun r => r.pct_b) = some 0.5) := by
  have hn : 0 < closes.length := List.length_pos.mpr hne
  constructor
  · intro hzero
    unfold stochastic_last_k stochasticK
    rw [getLastD_map_range _ _ _ hn]
    simp only [stochKAt]
    rw [show closes.length - 1 + 1 = closes.length from by omega]
    rw [slice_last_eq_lastN highs closes.length 14 hh,
      slice_last_eq_lastN lows closes.length 14 hl]
    rw [if_pos hzero]
  · intro h20 hconst
    have hband := bbBandAt_const closes h20 hconst
    have hup : ((List.range closes.length).map
        (fun i => (bbBandAt closes 20 2 (sma closes 20) i).1)).getLastD none =
        some (closes.getLastD 0) := by
      rw [getLastD_map_range _ _ _ hn, hband]
    have hlo : ((List.range closes.length).map
        (fun i => (bbBandAt closes 20 2 (sma closes 20) i).2)).getLastD none =
        some (closes.getLastD 0) := by
      rw [getLastD_map_range _ _ _ hn, hband]
    have hmidlen : (sma closes 20).length = closes.length := by
      unfold sma
      rw [List.length_append, List.length_replicate, List.length_map, List.length_range']
      omega
    have hmid : (sma closes 20).getLastD none = some (closes.getLastD 0) := by
      rw [List.getLastD_eq_getLast?, List.getLast?_eq_getElem?, hmidlen,
        ← List.getD_eq_getElem?_getD]
      exact sma_getD_last closes h20 hconst
    simp only [bb_last, bollinger_bands, BB_PERIOD, BB_STD]
    rw [hup, hmid, hlo]
    simp

set_option maxRecDepth 8000 in
/-- C2 witness for the amended claim: a constant 20-bar series hits both
fallbacks (%K = 50 and %B = 0.5). -/
theorem C2_zero_range_window_witness :
    (List.replicate 20 (2 : ℚ)).length = (List.replicate 20 (2 : ℚ)).length ∧
      (List.replicate 20 (2 : ℚ)) ≠ [] ∧
      listMax (lastN (List.replicate 20 (2 : ℚ)) 14) =
        listMin (lastN (List.replicate 20 (2 : ℚ)) 14) ∧
      20 ≤ (List.replicate 20 (2 : ℚ)).length ∧
      stochastic_last_k (List.replicate 20 (2 : ℚ)) (List.replicate 20 (2 : ℚ))
        (List.replicate 20 (2 : ℚ)) = 50 ∧
      (bb_last (List.replicate 20 (2 : ℚ))).map (fun r => r.pct_b) = some 0.5 :=
  ⟨rfl, by decide, by decide, by decide,
    (C2_zero_range_window (List.replicate 20 (2 : ℚ)) (List.replicate 20 (2 : ℚ))
      (List.replicate 20 (2 : ℚ)) rfl rfl (by decide)).1 (by decide),
    (C2_zero_range_window (List.replicate 20 (2 : ℚ)) (List.replicate 20 (2 : ℚ))
      (List.replicate 20 (2 : ℚ)) rfl rfl (by decide)).2 (by decide) (by decide)⟩

set_option maxRecDepth 8000 in
/-- C2 counterexample: 20 degenerate candles whose latest bar has zero
high-low range, yet %B = 3/4 and %K = 100 — a zero range on the latest bar
alone forces neither fallback. -/
theorem C2_zero_range_counterexample :
    ceC2.highs.getLastD 0 = ceC2.lows.getLastD 0 ∧
      (bb_last ceC2.closes).map (fun r => r.pct_b) = some (3 / 4) ∧
      stochastic_last_k ceC2.highs ceC2.lows ceC2.closes = 100 ∧
      ¬ ((bb_last ceC2.closes).map (fun r => r.pct_b) = some 0.5 ∧
        stochastic_last_k ceC2.highs ceC2.lows ceC2.closes = 50) := by
  refine ⟨by decide, by decide, by decide, ?_⟩
  intro h
  have := h.2
  revert this
  decide

/-! ## Level-analyzer lemmas (for C3) -/

theorem levelResistances_sorted (hs : List ℚ) (cur tol : ℚ) :
    List.Sorted leFst (levelResistances hs cur tol) := by
  unfold levelResistances
  exact List.sorted_insertionSort leFst _

theorem levelSupports_sorted (ls : List ℚ) (cur tol : ℚ) :
    List.Sorted geFst (levelSupports ls cur tol) := by
  unfold levelSupports
  exact List.sorted_insertionSort geFst _

theorem levelResistances_mem {hs : List ℚ} {cur tol : ℚ} {a : ℚ × ℕ}
    (h : a ∈ levelResistances hs cur tol) : cur * (1 + tol * 0.5) < a.1 := by
  unfold levelResistances at h
  have h2 := (List.perm_insertionSort leFst _).subset h
  have h3 := List.mem_filter.mp h2
  simpa using h3.2

theorem levelSupports_mem {ls : List ℚ} {cur tol : ℚ} {a : ℚ × ℕ}
    (h : a ∈ levelSupports ls cur tol) : a.1 < cur * (1 - tol * 0.5) := by
  unfold levelSupports at h
  have h2 := (List.perm_insertionSort geFst _).subset h
  have h3 := List.mem_filter.mp h2
  simpa using h3.2

theorem pick_sorted_le (R : List (ℚ × ℕ)) (fb1 fb2 : ℚ × ℕ)
    (hs : List.Sorted leFst R) (hfb1 : fb1.2 = 0) (hfb2 : fb2.2 = 0)
    (h1 : (R.headD fb1).2 ≠ 0) (h2 : (R.getD 1 fb2).2 ≠ 0) :
    (R.headD fb1).1 ≤ (R.getD 1 fb2).1 := by
  match R with
  | [] => exact absurd hfb1 h1
  | [a] => exact absurd hfb2 h2
  | a :: b :: t =>
    simp only [List.headD_cons]
    rw [show List.getD (a :: b :: t) 1 fb2 = b from rfl]
    exact (List.sorted_cons.mp hs).1 b (List.mem_cons_self b t)

theorem pick_sorted_ge (S : List (ℚ × ℕ)) (fb1 fb2 : ℚ × ℕ)
    (hs : List.Sorted geFst S) (hfb1 : fb1.2 = 0) (hfb2 : fb2.2 = 0)
    (h1 : (S.headD fb1).2 ≠ 0) (h2 : (S.getD 1 fb2).2 ≠ 0) :
    (S.getD 1 fb2).1 ≤ (S.headD fb1).1 := by
  match S with
  | [] => exact absurd hfb1 h1
  | [a] => exact absurd hfb2 h2
  | a :: b :: t =>
    simp only [List.headD_cons]
    rw [show List.getD (a :: b :: t) 1 fb2 = b from rfl]
    exact (List.sorted_cons.mp hs).1 b (List.mem_cons_self b t)

/-- C3 (amended): on the reported (6-decimal-rounded) Level Set, r1 ≤ r2
when both have nonzero touch count, s1 ≥ s2 when both have nonzero touch
count, and r1 ≥ current ≥ s1 (the strict inequalities of the pre-rounding
values can collapse to equality under the 6-decimal output rounding).
The hypotheses are the relevant §3 validity facts: a positive current
price not above the recent high nor below the recent low. -/
theorem C3_level_invariants (ohlcv : OHLCV) (lookback : Option ℕ)
    (hcur : 0 < (lastN ohlcv.closes (effLookback lookback)).getLastD 0)
    (hhigh : (lastN ohlcv.closes (effLookback lookback)).getLastD 0 ≤
      listMax (lastN ohlcv.highs (effLookback lookback)))
    (hlow : listMin (lastN ohlcv.lows (effLookback lookback)) ≤
      (lastN ohlcv.closes (effLookback lookback)).getLastD 0) :
    ((find_key_levels ohlcv lookback).r1_touches ≠ 0 →
      (find_key_levels ohlcv lookback).r2_touches ≠ 0 →
      (find_key_levels ohlcv lookback).r1 ≤ (find_key_levels ohlcv lookback).r2) ∧
    ((find_key_levels ohlcv lookback).s1_touches ≠ 0 →
      (find_key_levels ohlcv lookback).s2_touches ≠ 0 →
      (find_key_levels ohlcv lookback).s2 ≤ (find_key_levels ohlcv lookback).s1) ∧
    (find_key_levels ohlcv lookback).current ≤ (find_key_levels ohlcv lookback).r1 ∧
    (find_key_levels ohlcv lookback).s1 ≤ (find_key_levels ohlcv lookback).current := by
  refine ⟨?_, ?_, ?_, ?_⟩
  · intro h1 h2
    exact roundTo_mono 6 (pick_sorted_le _ _ _
      (levelResistances_sorted (lastN ohlcv.highs (effLookback lookback))
        ((lastN ohlcv.closes (effLookback lookback)).getLastD 0) CLUSTER_TOLERANCE)
      rfl rfl h1 h2)
  · intro h1 h2
    exact roundTo_mono 6 (pick_sorted_ge _ _ _
      (levelSupports_sorted (lastN ohlcv.lows (effLookback lookback))
        ((lastN ohlcv.closes (effLookback lookback)).getLastD 0) CLUSTER_TOLERANCE)
      rfl rfl h1 h2)
  · apply roundTo_mono 6
    rcases hR : levelResistances (lastN ohlcv.highs (effLookback lookback))
        ((lastN ohlcv.closes (effLookback lookback)).getLastD 0) CLUSTER_TOLERANCE with _ | ⟨a, t⟩
    · show (lastN ohlcv.closes (effLookback lookback)).getLastD 0 ≤
        ((List.headD [] (listMax (lastN ohlcv.highs (effLookback lookback)) * 1.02, 0)).1)
      simp only [List.headD_nil]
      linarith
    · show (lastN ohlcv.closes (effLookback lookback)).getLastD 0 ≤
        ((List.headD (a :: t) (listMax (lastN ohlcv.highs (effLookback lookback)) * 1.02, 0)).1)
      simp only [List.headD_cons]
      have hmem : a ∈ levelResistances (lastN ohlcv.highs (effLookback lookback))
          ((lastN ohlcv.closes (effLookback lookback)).getLastD 0) CLUSTER_TOLERANCE := by
        rw [hR]
        exact List.mem_cons_self a t
      have hgt := levelResistances_mem hmem
      unfold CLUSTER_TOLERANCE at hgt
      linarith
  · apply roundTo_mono 6
    rcases hS : levelSupports (lastN ohlcv.lows (effLookback lookback))
        ((lastN ohlcv.closes (effLookback lookback)).getLastD 0) CLUSTER_TOLERANCE with _ | ⟨a, t⟩
    · show ((List.headD [] (listMin (lastN ohlcv.lows (effLookback lookback)) * 0.98, 0)).1) ≤
        (lastN ohlcv.closes (effLookback lookback)).getLastD 0
      simp only [List.headD_nil]
      linarith
    · show ((List.headD (a :: t) (listMin (lastN ohlcv.lows (effLookback lookback)) * 0.98, 0)).1) ≤
        (lastN ohlcv.closes (effLookback lookback)).getLastD 0
      simp only [List.headD_cons]
      have hmem : a ∈ levelSupports (lastN ohlcv.lows (effLookback lookback))
          ((lastN ohlcv.closes (effLookback lookback)).getLastD 0) CLUSTER_TOLERANCE := by
        rw [hS]
        exact List.mem_cons_self a t
      have hlt := levelSupports_mem hmem
      unfold CLUSTER_TOLERANCE at hlt
      linarith

/-- C3 witness: three ordinary candles with highs clustered at 110 and lows
at 90 around a current price of 100 satisfy all four reported invariants. -/
theorem C3_level_invariants_witness :
    0 < (lastN wC3.closes (effLookback none)).getLastD 0 ∧
      (lastN wC3.closes (effLookback none)).getLastD 0 ≤
        listMax (lastN wC3.highs (effLookback none)) ∧
      listMin (lastN wC3.lows (effLookback none)) ≤
        (lastN wC3.closes (effLookback none)).getLastD 0 ∧
      (((find_key_levels wC3 none).r1_touches ≠ 0 →
        (find_key_levels wC3 none).r2_touches ≠ 0 →
        (find_key_levels wC3 none).r1 ≤ (find_key_levels wC3 none).r2) ∧
      ((find_key_levels wC3 none).s1_touches ≠ 0 →
        (find_key_levels wC3 none).s2_touches ≠ 0 →
        (find_key_levels wC3 none).s2 ≤ (find_key_levels wC3 none).s1) ∧
      (find_key_levels wC3 none).current ≤ (find_key_levels wC3 none).r1 ∧
      (find_key_levels wC3 none).s1 ≤ (find_key_levels wC3 none).current) :=
  ⟨by decide, by decide, by decide,
    C3_level_invariants wC3 none (by decide) (by decide) (by decide)⟩

set_option maxRecDepth 4000 in
/-- C3 counterexample: two identical candles at the (valid) price 0.000007.
The pre-rounding levels are strictly separated, but the 6-decimal output
rounding collapses r1, current and s1 to the same reported value, so
r1 > current > s1 fails on the Level Analyzer's output. -/
theorem C3_strictness_counterexample :
    0 < (lastN ceC3.closes (effLookback none)).getLastD 0 ∧
      (lastN ceC3.closes (effLookback none)).getLastD 0 ≤
        listMax (lastN ceC3.highs (effLookback none)) ∧
      listMin (lastN ceC3.lows (effLookback none)) ≤
        (lastN ceC3.closes (effLookback none)).getLastD 0 ∧
      ¬ ((find_key_levels ceC3 none).current < (find_key_levels ceC3 none).r1 ∧
        (find_key_levels ceC3 none).s1 < (find_key_levels ceC3 none).current) := by
  refine ⟨by decide, by decide, by decide, ?_⟩
  intro h
  have := h.1
  revert this
  decide

end CryptoBot
